import Mathlib

/-!
# GBCamcorder firmware: timing and synchronisation core

A shallow embedding of `GBCamcorder/src/main.c`: the ADC interrupt handler that fills the
circular pool of 512-sample audio buffers, the timer interrupt that paces playback, the
slow-poll part of the main loop that watches the SD card and the cartridge, the tick
interrupt with its busy-wait, and the tone generator `beep`.

The headers `main.h` and `ff.h` are not modelled.  What the handlers need from them (the
macro `MAX_AUDIO_BUFFERS`, the width of each counter, the value of `FR_OK`) is a field of
`Decls`, so every theorem holds for all declarations that are well formed.  The
collaborators (`f_mount`, `gbcam_detect`, `lcd_paint`, the callbacks) appear as the values
they return and as entries of a call log.
-/

namespace GBCamcorder

/-! ## Declarations taken as parameters -/

/-- The declarations of the headers that `main.c` depends on.  A field `*_mod` is the
number of values of the unsigned type of that variable (`2 ^ width`), used where the source
increments the variable. -/
structure Decls where
  /-- `#define MAX_AUDIO_BUFFERS` of `main.h`: the number of 512-byte buffers. -/
  MAX_AUDIO_BUFFERS : Nat
  /-- Number of values of the type of `audio_fifo_ptr`. -/
  ptr_mod : Nat
  /-- Number of values of the type of `audio_fifo_put`. -/
  put_mod : Nat
  /-- Number of values of the type of `audio_fifo_ready`. -/
  ready_mod : Nat
  /-- Number of values of the type of `skipped`. -/
  skipped_mod : Nat
  /-- The enumerator `FR_OK` of FatFs (`ff.h`). -/
  FR_OK : Nat
deriving DecidableEq, Repr

/-- The declarations are well formed when the array has at least one buffer and every
constant a variable is compared with fits the type of that variable: `511` fits
`audio_fifo_ptr`, and `MAX_AUDIO_BUFFERS - 1` fits `audio_fifo_put` and `audio_fifo_ready`. -/
def Decls.WellFormed (d : Decls) : Prop :=
  0 < d.MAX_AUDIO_BUFFERS ∧ 512 ≤ d.ptr_mod ∧ d.MAX_AUDIO_BUFFERS ≤ d.put_mod ∧
    d.MAX_AUDIO_BUFFERS ≤ d.ready_mod ∧ 0 < d.skipped_mod

instance (d : Decls) : Decidable d.WellFormed := by
  unfold Decls.WellFormed; infer_instance

/-- An example configuration: six buffers, as the comments of `main.c` say (3072 bytes of
`audio_fifo`, "should NEVER go over 5"), with a 16-bit offset and missed-frame counter,
8-bit indices and `FR_OK = 0`. -/
def decls6 : Decls :=
  { MAX_AUDIO_BUFFERS := 6, ptr_mod := 65536, put_mod := 256, ready_mod := 256,
    skipped_mod := 65536, FR_OK := 0 }

/-! ## The audio capture pipeline -/

/-- The variables `ADC_IRQHandler` and `TIMER32_0_IRQHandler` read and write.
`audio_fifo b i` is the cell `audio_fifo[b][i]`. -/
structure Audio where
  audio_fifo : Nat → Nat → Nat
  audio_fifo_put : Nat
  audio_fifo_ptr : Nat
  audio_fifo_ready : Nat
  audio_max : Nat
  frame_tick : Nat
  skipped : Nat
  /-- The register `LPC_TMR32B0->IR`. -/
  TMR32B0_IR : Nat
  /-- The register `NVIC->ICPR[1]`. -/
  NVIC_ICPR1 : Nat

/-- The state after reset: every variable of `.bss` is zero. -/
def Audio.boot : Audio :=
  { audio_fifo := fun _ _ => 0, audio_fifo_put := 0, audio_fifo_ptr := 0,
    audio_fifo_ready := 0, audio_max := 0, frame_tick := 0, skipped := 0,
    TMR32B0_IR := 0, NVIC_ICPR1 := 0 }

/-- The assignment `a[b][i] = v` on the two-dimensional array. -/
def store (a : Nat → Nat → Nat) (b i v : Nat) : Nat → Nat → Nat :=
  fun b' i' => if b' = b ∧ i' = i then v else a b' i'

/-- The sample of one conversion, `(LPC_ADC->DR0 >> 8) & 0xFF`. -/
def ad_data (DR0 : Nat) : Nat := (DR0 >>> 8) &&& 0xFF

/-- The handler `ADC_IRQHandler` of `main.c`, run on the value `DR0` read from the ADC. -/
def ADC_IRQHandler (d : Decls) (DR0 : Nat) (s : Audio) : Audio :=
  let v := ad_data DR0
  let s1 := { s with audio_fifo := store s.audio_fifo s.audio_fifo_put s.audio_fifo_ptr v }
  let s2 := if v > s1.audio_max then { s1 with audio_max := v } else s1
  let s3 :=
    if s2.audio_fifo_ptr = 511 then
      let a := { s2 with audio_fifo_ptr := 0, audio_max := 0 }
      let b := if a.frame_tick ≠ 0 then { a with skipped := (a.skipped + 1) % d.skipped_mod } else a
      let c := { b with frame_tick := 1 }
      let e :=
        if c.audio_fifo_ready < d.MAX_AUDIO_BUFFERS - 1 then
          { c with audio_fifo_ready := (c.audio_fifo_ready + 1) % d.ready_mod }
        else c
      if e.audio_fifo_put = d.MAX_AUDIO_BUFFERS - 1 then { e with audio_fifo_put := 0 }
      else { e with audio_fifo_put := (e.audio_fifo_put + 1) % d.put_mod }
    else { s2 with audio_fifo_ptr := (s2.audio_fifo_ptr + 1) % d.ptr_mod }
  { s3 with NVIC_ICPR1 := s3.NVIC_ICPR1 ||| (1 <<< 17) }

/-- The handler `TIMER32_0_IRQHandler` of `main.c`, which paces playback. -/
def TIMER32_0_IRQHandler (d : Decls) (s : Audio) : Audio :=
  let s1 :=
    if s.audio_fifo_ptr = 511 then { s with audio_fifo_ptr := 0, frame_tick := 1 }
    else { s with audio_fifo_ptr := (s.audio_fifo_ptr + 1) % d.ptr_mod }
  { s1 with TMR32B0_IR := 1, NVIC_ICPR1 := 1 <<< 11 }

/-- The state after `n` ADC interrupts, the `i`-th of which reads `smp i` from `DR0`. -/
def run_ADC (d : Decls) (smp : Nat → Nat) : Nat → Audio → Audio
  | 0, s => s
  | n + 1, s => ADC_IRQHandler d (smp n) (run_ADC d smp n s)

/-- What can happen to the buffer pool: an ADC interrupt reading `DR0`, or one action of the
consumer in the main loop. -/
inductive PoolEvent where
  | adc (DR0 : Nat)
  | consumer
deriving DecidableEq, Repr

/-- The state after a sequence of events, first event first.  The consumer belongs to the
capture loop and not to `main.c`, so its action `c` is a parameter. -/
def run_events (d : Decls) (c : Audio → Audio) : List PoolEvent → Audio → Audio
  | [], s => s
  | PoolEvent.adc x :: es, s => run_events d c es (ADC_IRQHandler d x s)
  | PoolEvent.consumer :: es, s => run_events d c es (c s)

/-- An example state: six buffers configured, four ready, the current one lacking its last
sample. -/
def Audio.last_sample : Audio :=
  { Audio.boot with audio_fifo_ptr := 511, audio_fifo_ready := 4 }

/-- An example state: boot, but with `frame_tick` left set. -/
def Audio.tick_pending : Audio := { Audio.boot with frame_tick := 1 }

/-- An example consumer action: take one buffer out of the pool. -/
def take_one (t : Audio) : Audio := { t with audio_fifo_ready := t.audio_fifo_ready - 1 }

/-- The buffer index after `audio_fifo_put`, as the handler computes it. -/
def next_put (d : Decls) (p : Nat) : Nat :=
  if p = d.MAX_AUDIO_BUFFERS - 1 then 0 else (p + 1) % d.put_mod

/-- The largest element of `f 0, ..., f (n - 1)`, and `0` when `n = 0`. -/
def max_upto (f : Nat → Nat) : Nat → Nat
  | 0 => 0
  | n + 1 => max (max_upto f n) (f n)

/-! ## The main loop -/

/-- The images declared in `icons.h`. -/
inductive Icon where
  | logo
  | logo_fe
  | icon_sdok
  | icon_sdnok
  | icon_camok
  | icon_camnok
deriving DecidableEq, Repr

/-- A call of the main loop into a collaborator (display, storage, cartridge, views). -/
inductive Call where
  | loop_func
  | FCLK_SLOW
  | FCLK_FAST
  | f_mount
  | gbcam_detect
  | slot_func
  | lcd_paint (x y : Nat) (img : Icon) (t : Nat)
deriving DecidableEq, Repr

/-- The variables of the main loop. -/
structure Main where
  check_timer : Nat
  sd_ok : Nat
  gbcam_ok : Nat
  sd_ok_prev : Nat
  gbcam_ok_prev : Nat
  fr : Nat
deriving DecidableEq, Repr

/-- The assignments at the top of `main` (lines 184 to 188); `fr` is still zero from reset. -/
def Main.boot : Main :=
  { check_timer := 0, sd_ok := 0, gbcam_ok := 0, sd_ok_prev := 2, gbcam_ok_prev := 2, fr := 0 }

/-- The callback `noop` that `main` stores in `slot_func`. -/
def noop (m : Main) : Main := m

/-- A callback that leaves the two flags and their shadows as they are. -/
def KeepsFlags (cb : Main → Main) : Prop :=
  ∀ m, (cb m).sd_ok = m.sd_ok ∧ (cb m).gbcam_ok = m.gbcam_ok ∧
    (cb m).sd_ok_prev = m.sd_ok_prev ∧ (cb m).gbcam_ok_prev = m.gbcam_ok_prev

/-- Lines 252 to 258: the mount attempt, made only while `sd_ok` is zero.  `mount` is what
`f_mount` returns if it is called. -/
def try_mount (d : Decls) (mount : Nat) (m : Main) : Main × List Call :=
  if m.sd_ok = 0 then
    let a := { m with fr := mount }
    (if a.fr = d.FR_OK then { a with sd_ok := 1 } else a, [Call.FCLK_SLOW, Call.f_mount])
  else (m, [])

/-- Lines 260 to 265: the cartridge probe, made only while `gbcam_ok` is zero.  `detect` is
what `gbcam_detect` returns if it is called. -/
def probe_gbcam (detect : Nat) (m : Main) : Main × List Call :=
  if m.gbcam_ok = 0 then
    (if detect = 0 then { m with gbcam_ok := 1 } else { m with gbcam_ok := 0 },
      [Call.gbcam_detect])
  else (m, [])

/-- Lines 267 and 268: the state-change callback; `cb` is the function `slot_func` points
to. -/
def notify (cb : Main → Main) (m : Main) : Main × List Call :=
  if m.sd_ok ≠ m.sd_ok_prev ∨ m.gbcam_ok ≠ m.gbcam_ok_prev then (cb m, [Call.slot_func])
  else (m, [])

/-- Lines 270 to 277: the storage icon. -/
def draw_sd (m : Main) : List Call :=
  if m.sd_ok ≠ m.sd_ok_prev then
    [Call.FCLK_FAST,
      if m.sd_ok ≠ 0 then Call.lcd_paint 218 0 Icon.icon_sdok 1
      else Call.lcd_paint 218 0 Icon.icon_sdnok 1]
  else []

/-- Lines 279 to 286: the camera icon. -/
def draw_cam (m : Main) : List Call :=
  if m.gbcam_ok ≠ m.gbcam_ok_prev then
    [Call.FCLK_FAST,
      if m.gbcam_ok ≠ 0 then Call.lcd_paint 184 0 Icon.icon_camok 1
      else Call.lcd_paint 184 0 Icon.icon_camnok 1]
  else []

/-- The body of `if (!check_timer)` in the loop of `main` (lines 250 to 289): one slow-poll.
The result is the new state and the calls made, in order. -/
def slow_poll (d : Decls) (cb : Main → Main) (mount detect : Nat) (m : Main) :
    Main × List Call :=
  let r1 := try_mount d mount { m with check_timer := 100 }
  let r2 := probe_gbcam detect r1.1
  let r3 := notify cb r2.1
  ({ r3.1 with sd_ok_prev := r3.1.sd_ok, gbcam_ok_prev := r3.1.gbcam_ok },
    r1.2 ++ r2.2 ++ r3.2 ++ draw_sd r3.1 ++ draw_cam r3.1)

/-- One iteration of `while (1)` in `main`: the mode callback `lf`, then the slow-poll when
`check_timer` is zero. -/
def main_iteration (d : Decls) (lf cb : Main → Main) (mount detect : Nat) (m : Main) :
    Main × List Call :=
  let m1 := lf m
  if m1.check_timer = 0 then
    let r := slow_poll d cb mount detect m1
    (r.1, Call.loop_func :: r.2)
  else (m1, [Call.loop_func])

/-- Consecutive slow-polls, one per pair `(mount, detect)` of collaborator outcomes.  The
result is the last state and the calls of each slow-poll. -/
def slow_polls (d : Decls) (cb : Main → Main) : List (Nat × Nat) → Main → Main × List (List Call)
  | [], m => (m, [])
  | o :: os, m =>
    let r := slow_poll d cb o.1 o.2 m
    let q := slow_polls d cb os r.1
    (q.1, r.2 :: q.2)

/-- Whether a call draws the storage icon, at (218, 0). -/
def is_sd_icon : Call → Bool
  | Call.lcd_paint 218 0 _ _ => true
  | _ => false

/-- Whether a call draws the camera icon, at (184, 0). -/
def is_cam_icon : Call → Bool
  | Call.lcd_paint 184 0 _ _ => true
  | _ => false

/-- The icon calls among the calls of a slow-poll. -/
def icons_drawn (l : List Call) : List Call :=
  l.filter (fun c => is_sd_icon c || is_cam_icon c)

/-- What is observed of one slow-poll: how often `slot_func` was called, and the icons drawn. -/
def observed (l : List Call) : Nat × List Call :=
  (l.count Call.slot_func, icons_drawn l)

/-! ## Both pacing interrupts -/

/-- The state after `n` interrupts of the playback timer. -/
def run_TIMER (d : Decls) : Nat → Audio → Audio
  | 0, s => s
  | n + 1, s => TIMER32_0_IRQHandler d (run_TIMER d n s)

/-- What happens to the pacing state in one mode of the device: an interrupt of the active
source (reading `DR0` when the source is the ADC), or one action of the consumer. -/
inductive PaceEvent where
  | irq (DR0 : Nat)
  | consumer
deriving DecidableEq, Repr

/-- A sequence of pacing events during live capture: the interrupts are ADC interrupts. -/
def run_live (d : Decls) (c : Audio → Audio) : List PaceEvent → Audio → Audio
  | [], s => s
  | PaceEvent.irq x :: es, s => run_live d c es (ADC_IRQHandler d x s)
  | PaceEvent.consumer :: es, s => run_live d c es (c s)

/-- A sequence of pacing events during playback: the interrupts are timer interrupts. -/
def run_playback (d : Decls) (c : Audio → Audio) : List PaceEvent → Audio → Audio
  | [], s => s
  | PaceEvent.irq _ :: es, s => run_playback d c es (TIMER32_0_IRQHandler d s)
  | PaceEvent.consumer :: es, s => run_playback d c es (c s)

/-- The number of interrupts among pacing events. -/
def irq_count : List PaceEvent → Nat
  | [] => 0
  | PaceEvent.irq _ :: es => irq_count es + 1
  | PaceEvent.consumer :: es => irq_count es

/-- An example consumer action: acknowledge the frame edge. -/
def clear_tick (t : Audio) : Audio := { t with frame_tick := 0 }

/-- An interrupt that touches the audio state: the ADC (reading `DR0`) or the timer. -/
inductive IrqEvent where
  | adc (DR0 : Nat)
  | timer
deriving DecidableEq, Repr

/-- Any interleaving of the two handlers, first event first. -/
def run_irqs (d : Decls) : List IrqEvent → Audio → Audio
  | [], s => s
  | IrqEvent.adc x :: es, s => run_irqs d es (ADC_IRQHandler d x s)
  | IrqEvent.timer :: es, s => run_irqs d es (TIMER32_0_IRQHandler d s)

/-- The index pair `audio_fifo[b][i]` names a cell of the array. -/
def InBounds (d : Decls) (s : Audio) : Prop :=
  s.audio_fifo_put < d.MAX_AUDIO_BUFFERS ∧ s.audio_fifo_ptr ≤ 511

/-! ## The tick service -/

/-- The variables of `SysTick_Handler`. -/
structure Tick where
  systick : Nat
  check_timer : Nat
  rec_timer : Nat
deriving DecidableEq, Repr

/-- The tick variables after reset (`.bss`), which is also what `main` assigns to
`check_timer`. -/
def Tick.boot : Tick := { systick := 0, check_timer := 0, rec_timer := 0 }

/-- The value `main` writes to `SysTick->LOAD` (line 179). -/
def SysTick_LOAD : Nat := 72000000 / 100 - 1

/-- The value `main` reloads `check_timer` with (line 250). -/
def check_timer_reload : Nat := 100

/-- The handler `SysTick_Handler` of `main.c`.  `rec_mod` is the number of values of the type
of `rec_timer` (declared in `main.h`), the only variable incremented without a guard. -/
def SysTick_Handler (rec_mod : Nat) (t : Tick) : Tick :=
  let t1 := if t.systick < 255 then { t with systick := t.systick + 1 } else t
  let t2 := if t1.check_timer ≠ 0 then { t1 with check_timer := t1.check_timer - 1 } else t1
  { t2 with rec_timer := (t2.rec_timer + 1) % rec_mod }

/-- The state after `n` tick interrupts. -/
def run_SysTick (rec_mod : Nat) : Nat → Tick → Tick
  | 0, t => t
  | n + 1, t => SysTick_Handler rec_mod (run_SysTick rec_mod n t)

/-- What writes the tick variables: the tick interrupt, the reset of `systick` at the start
of `systick_wait`, and the reload of `check_timer` by the main loop. -/
inductive TickEvent where
  | tick
  | wait_reset
  | reload
deriving DecidableEq, Repr

/-- The state after a sequence of tick events, first event first. -/
def run_tick_events (rec_mod : Nat) : List TickEvent → Tick → Tick
  | [], t => t
  | TickEvent.tick :: es, t => run_tick_events rec_mod es (SysTick_Handler rec_mod t)
  | TickEvent.wait_reset :: es, t => run_tick_events rec_mod es { t with systick := 0 }
  | TickEvent.reload :: es, t =>
    run_tick_events rec_mod es { t with check_timer := check_timer_reload }

/-- The loop `while (systick < duration);` of `systick_wait`.  The loop polls much faster
than the tick, so between two polls that differ at most one tick interrupt has run; `fuel`
is the number of tick interrupts that may still arrive, and `none` means that the loop is
still polling after all of them. -/
def systick_wait_loop (rec_mod duration : Nat) : Nat → Tick → Option Tick
  | 0, t => if t.systick < duration then none else some t
  | fuel + 1, t =>
    if t.systick < duration then
      systick_wait_loop rec_mod duration fuel (SysTick_Handler rec_mod t)
    else some t

/-- The function `systick_wait` of `main.c`. -/
def systick_wait (rec_mod duration fuel : Nat) (t : Tick) : Option Tick :=
  systick_wait_loop rec_mod duration fuel { t with systick := 0 }

/-! ## The tone generator -/

/-- The registers `beep` and the boot configuration write: those of `LPC_TMR32B0`, and
`LPC_IOCON->PIO1_6`. -/
inductive Reg where
  | TCR
  | TC
  | PR
  | PWMC
  | MCR
  | MR0
  | MR3
  | PIO1_6
deriving DecidableEq, Repr

/-- The contents of these registers. -/
structure Tmr32 where
  TCR : Nat
  TC : Nat
  PR : Nat
  PWMC : Nat
  MCR : Nat
  MR0 : Nat
  MR3 : Nat
  PIO1_6 : Nat
deriving DecidableEq, Repr

/-- The registers after reset, all zero. -/
def Tmr32.reset : Tmr32 :=
  { TCR := 0, TC := 0, PR := 0, PWMC := 0, MCR := 0, MR0 := 0, MR3 := 0, PIO1_6 := 0 }

/-- One register write. -/
def write (h : Tmr32) (w : Reg × Nat) : Tmr32 :=
  match w.1 with
  | Reg.TCR => { h with TCR := w.2 }
  | Reg.TC => { h with TC := w.2 }
  | Reg.PR => { h with PR := w.2 }
  | Reg.PWMC => { h with PWMC := w.2 }
  | Reg.MCR => { h with MCR := w.2 }
  | Reg.MR0 => { h with MR0 := w.2 }
  | Reg.MR3 => { h with MR3 := w.2 }
  | Reg.PIO1_6 => { h with PIO1_6 := w.2 }

/-- A sequence of register writes, first write first. -/
def writes (ws : List (Reg × Nat)) (h : Tmr32) : Tmr32 := ws.foldl write h

/-- The configuration of `TMR32B0` in `main` (lines 209 to 212). -/
def TMR32B0_boot : List (Reg × Nat) :=
  [(Reg.PR, 1099), (Reg.MCR, 0x0002), (Reg.MR0, 3), (Reg.TCR, 0)]

/-- The writes of `beep` up to the enabling of the timer (lines 142 to 151). -/
def beep_setup : List (Reg × Nat) :=
  [(Reg.TCR, 0), (Reg.TC, 0), (Reg.PR, 100), (Reg.PWMC, 1), (Reg.MCR, 0x0400), (Reg.MR0, 90),
    (Reg.MR3, 100), (Reg.PIO1_6, 2), (Reg.TCR, 1)]

/-- The duty value `period - ((period * volume) >> 8)` in 32-bit unsigned arithmetic. -/
def beep_duty (period volume : Nat) : Nat :=
  (period + 2 ^ 32 - (((period * volume) % 2 ^ 32) >>> 8)) % 2 ^ 32

/-- The writes of `beep` that set the tone (lines 154 to 156). -/
def beep_tone (period volume : Nat) : List (Reg × Nat) :=
  [(Reg.MR3, period), (Reg.MR0, beep_duty period volume), (Reg.TC, 0)]

/-- The writes of `beep` after the wait (lines 160 to 166). -/
def beep_restore : List (Reg × Nat) :=
  [(Reg.PIO1_6, 0), (Reg.TCR, 0), (Reg.TC, 0), (Reg.PR, 1099), (Reg.MCR, 0x0002), (Reg.MR0, 3)]

/-- The value `360000UL / frequency` of line 153; the division by zero is undefined. -/
def beep_period (frequency : Nat) : Option Nat :=
  if frequency = 0 then none else some (360000 / frequency)

/-- The function `beep` of `main.c` on the registers `h` and the tick variables `t`.  While
the timer runs the hardware counts in `TC`; `tc` is what `TC` holds when the wait ends.
The result is `none` when the division is undefined or the wait does not end within `fuel`
ticks, and otherwise the registers, the tick variables and the register writes in order. -/
def beep (rec_mod fuel tc frequency duration volume : Nat) (h : Tmr32) (t : Tick) :
    Option (Tmr32 × Tick × List (Reg × Nat)) :=
  let h1 := writes beep_setup h
  match beep_period frequency with
  | none => none
  | some period =>
    let h2 := writes (beep_tone period volume) h1
    match systick_wait rec_mod duration fuel t with
    | none => none
    | some t1 =>
      let h3 := writes beep_restore { h2 with TC := tc }
      some (h3, t1, beep_setup ++ beep_tone period volume ++ beep_restore)

/-- The writes to a match register (`MR0`, `MR3`) made while the timer is enabled: `tcr` is
the value of `TCR` before the first write of the list. -/
def armed_match_writes : Nat → List (Reg × Nat) → List (Reg × Nat)
  | _, [] => []
  | tcr, w :: ws =>
    if w.1 = Reg.TCR then armed_match_writes w.2 ws
    else if (w.1 = Reg.MR0 ∨ w.1 = Reg.MR3) ∧ tcr ≠ 0 then w :: armed_match_writes tcr ws
    else armed_match_writes tcr ws

/-! ## One invocation of the ADC handler, field by field -/

/-- A sample fits the 8-bit cell it is stored in. -/
theorem ad_data_lt (x : Nat) : ad_data x < 256 := by
  unfold ad_data
  exact Nat.lt_of_le_of_lt Nat.and_le_right (by decide)

theorem ADC_ptr (d : Decls) (x : Nat) (s : Audio) :
    (ADC_IRQHandler d x s).audio_fifo_ptr =
      if s.audio_fifo_ptr = 511 then 0 else (s.audio_fifo_ptr + 1) % d.ptr_mod := by
  simp only [ADC_IRQHandler, apply_ite Audio.audio_fifo_ptr, ite_self]

theorem ADC_put (d : Decls) (x : Nat) (s : Audio) :
    (ADC_IRQHandler d x s).audio_fifo_put =
      if s.audio_fifo_ptr = 511 then next_put d s.audio_fifo_put else s.audio_fifo_put := by
  simp only [ADC_IRQHandler, next_put, apply_ite Audio.audio_fifo_put,
    apply_ite Audio.audio_fifo_ptr, ite_self]

theorem ADC_ready (d : Decls) (x : Nat) (s : Audio) :
    (ADC_IRQHandler d x s).audio_fifo_ready =
      if s.audio_fifo_ptr = 511 ∧ s.audio_fifo_ready < d.MAX_AUDIO_BUFFERS - 1 then
        (s.audio_fifo_ready + 1) % d.ready_mod
      else s.audio_fifo_ready := by
  simp only [ADC_IRQHandler, apply_ite Audio.audio_fifo_ready, apply_ite Audio.audio_fifo_ptr,
    ite_self]
  split_ifs <;> first | rfl | simp_all

theorem ADC_frame_tick (d : Decls) (x : Nat) (s : Audio) :
    (ADC_IRQHandler d x s).frame_tick = if s.audio_fifo_ptr = 511 then 1 else s.frame_tick := by
  simp only [ADC_IRQHandler, apply_ite Audio.frame_tick, apply_ite Audio.audio_fifo_ptr, ite_self]

theorem ADC_skipped (d : Decls) (x : Nat) (s : Audio) :
    (ADC_IRQHandler d x s).skipped =
      if s.audio_fifo_ptr = 511 ∧ s.frame_tick ≠ 0 then (s.skipped + 1) % d.skipped_mod
      else s.skipped := by
  simp only [ADC_IRQHandler, apply_ite Audio.skipped, apply_ite Audio.audio_fifo_ptr,
    apply_ite Audio.frame_tick, ite_self]
  split_ifs <;> first | rfl | simp_all

theorem ADC_audio_max (d : Decls) (x : Nat) (s : Audio) :
    (ADC_IRQHandler d x s).audio_max =
      if s.audio_fifo_ptr = 511 then 0 else max s.audio_max (ad_data x) := by
  simp only [ADC_IRQHandler, apply_ite Audio.audio_max, apply_ite Audio.audio_fifo_ptr, ite_self]
  split_ifs <;> first | rfl | omega

theorem ADC_audio_fifo (d : Decls) (x : Nat) (s : Audio) :
    (ADC_IRQHandler d x s).audio_fifo =
      store s.audio_fifo s.audio_fifo_put s.audio_fifo_ptr (ad_data x) := by
  simp only [ADC_IRQHandler, apply_ite Audio.audio_fifo, ite_self]

/-! ## Filling one buffer -/

theorem run_ADC_add (d : Decls) (smp : Nat → Nat) (m n : Nat) (s : Audio) :
    run_ADC d smp (m + n) s = run_ADC d (fun i => smp (m + i)) n (run_ADC d smp m s) := by
  induction n with
  | zero => rfl
  | succ n ih =>
    show ADC_IRQHandler d (smp (m + n)) (run_ADC d smp (m + n) s) = _
    rw [ih]
    rfl

/-- While a buffer is being filled (fewer than 512 samples after `audio_fifo_ptr = 0`) only
the offset, the peak and the cells of the current buffer change. -/
theorem run_ADC_fill (d : Decls) (hd : d.WellFormed) (smp : Nat → Nat) (s : Audio)
    (h0 : s.audio_fifo_ptr = 0) (j : Nat) (hj : j ≤ 511) :
    (run_ADC d smp j s).audio_fifo_ptr = j ∧
    (run_ADC d smp j s).audio_fifo_put = s.audio_fifo_put ∧
    (run_ADC d smp j s).audio_fifo_ready = s.audio_fifo_ready ∧
    (run_ADC d smp j s).frame_tick = s.frame_tick ∧
    (run_ADC d smp j s).skipped = s.skipped ∧
    (run_ADC d smp j s).audio_max = max s.audio_max (max_upto (fun i => ad_data (smp i)) j) ∧
    ∀ b i, (run_ADC d smp j s).audio_fifo b i =
      if b = s.audio_fifo_put ∧ i < j then ad_data (smp i) else s.audio_fifo b i := by
  obtain ⟨_, hp, _, _, _⟩ := hd
  induction j with
  | zero => simp [run_ADC, h0, max_upto]
  | succ j ih =>
    obtain ⟨i1, i2, i3, i4, i5, i6, i7⟩ := ih (by omega)
    have hne : (run_ADC d smp j s).audio_fifo_ptr ≠ 511 := by omega
    have hne2 : ¬ ((run_ADC d smp j s).audio_fifo_ptr = 511 ∧
        (run_ADC d smp j s).audio_fifo_ready < d.MAX_AUDIO_BUFFERS - 1) := fun h => hne h.1
    have hne3 : ¬ ((run_ADC d smp j s).audio_fifo_ptr = 511 ∧
        (run_ADC d smp j s).frame_tick ≠ 0) := fun h => hne h.1
    refine ⟨?_, ?_, ?_, ?_, ?_, ?_, ?_⟩
    · show (ADC_IRQHandler d (smp j) (run_ADC d smp j s)).audio_fifo_ptr = _
      rw [ADC_ptr, if_neg hne, i1]
      exact Nat.mod_eq_of_lt (by omega)
    · show (ADC_IRQHandler d (smp j) (run_ADC d smp j s)).audio_fifo_put = _
      rw [ADC_put, if_neg hne, i2]
    · show (ADC_IRQHandler d (smp j) (run_ADC d smp j s)).audio_fifo_ready = _
      rw [ADC_ready, if_neg hne2, i3]
    · show (ADC_IRQHandler d (smp j) (run_ADC d smp j s)).frame_tick = _
      rw [ADC_frame_tick, if_neg hne, i4]
    · show (ADC_IRQHandler d (smp j) (run_ADC d smp j s)).skipped = _
      rw [ADC_skipped, if_neg hne3, i5]
    · show (ADC_IRQHandler d (smp j) (run_ADC d smp j s)).audio_max = _
      rw [ADC_audio_max, if_neg hne, i6]
      simp only [max_upto]
      omega
    · intro b i
      show (ADC_IRQHandler d (smp j) (run_ADC d smp j s)).audio_fifo b i = _
      rw [ADC_audio_fifo, i1, i2]
      unfold store
      rw [i7]
      by_cases hb : b = s.audio_fifo_put
      · by_cases hi : i = j
        · subst hi; simp [hb]
        · have : (i < j + 1) ↔ (i < j) := by omega
          simp [hb, hi, this]
      · simp [hb]

/-- The 512th sample after `audio_fifo_ptr = 0` completes the buffer. -/
theorem run_ADC_block (d : Decls) (hd : d.WellFormed) (smp : Nat → Nat) (s : Audio)
    (h0 : s.audio_fifo_ptr = 0) :
    (run_ADC d smp 512 s).audio_fifo_ptr = 0 ∧
    (run_ADC d smp 512 s).audio_fifo_put = next_put d s.audio_fifo_put ∧
    (run_ADC d smp 512 s).audio_fifo_ready =
      (if s.audio_fifo_ready < d.MAX_AUDIO_BUFFERS - 1 then
        (s.audio_fifo_ready + 1) % d.ready_mod else s.audio_fifo_ready) ∧
    (run_ADC d smp 512 s).frame_tick = 1 ∧
    (run_ADC d smp 512 s).skipped =
      (if s.frame_tick ≠ 0 then (s.skipped + 1) % d.skipped_mod else s.skipped) ∧
    (run_ADC d smp 512 s).audio_max = 0 ∧
    ∀ b i, (run_ADC d smp 512 s).audio_fifo b i =
      if b = s.audio_fifo_put ∧ i < 512 then ad_data (smp i) else s.audio_fifo b i := by
  obtain ⟨i1, i2, i3, i4, i5, _, i7⟩ := run_ADC_fill d hd smp s h0 511 (le_refl _)
  refine ⟨?_, ?_, ?_, ?_, ?_, ?_, ?_⟩
  · show (ADC_IRQHandler d (smp 511) (run_ADC d smp 511 s)).audio_fifo_ptr = _
    rw [ADC_ptr, if_pos i1]
  · show (ADC_IRQHandler d (smp 511) (run_ADC d smp 511 s)).audio_fifo_put = _
    rw [ADC_put, if_pos i1, i2]
  · show (ADC_IRQHandler d (smp 511) (run_ADC d smp 511 s)).audio_fifo_ready = _
    rw [ADC_ready, i1, i3]
    simp
  · show (ADC_IRQHandler d (smp 511) (run_ADC d smp 511 s)).frame_tick = _
    rw [ADC_frame_tick, if_pos i1]
  · show (ADC_IRQHandler d (smp 511) (run_ADC d smp 511 s)).skipped = _
    rw [ADC_skipped, i1, i4, i5]
    simp
  · show (ADC_IRQHandler d (smp 511) (run_ADC d smp 511 s)).audio_max = _
    rw [ADC_audio_max, if_pos i1]
  · intro b i
    show (ADC_IRQHandler d (smp 511) (run_ADC d smp 511 s)).audio_fifo b i = _
    rw [ADC_audio_fifo, i1, i2]
    unfold store
    rw [i7]
    by_cases hb : b = s.audio_fifo_put
    · by_cases hi : i = 511
      · subst hi; simp [hb]
      · have : (i < 512) ↔ (i < 511) := by omega
        simp [hb, hi, this]
    · simp [hb]

/-! ## Several buffers in a row -/

theorem run_ADC_succ_block (d : Decls) (smp : Nat → Nat) (k : Nat) (s : Audio) :
    run_ADC d smp (512 * (k + 1)) s =
      run_ADC d (fun i => smp (512 * k + i)) 512 (run_ADC d smp (512 * k) s) := by
  rw [Nat.mul_succ, run_ADC_add]

theorem run_ADC_blocks_ptr (d : Decls) (hd : d.WellFormed) (smp : Nat → Nat) (s : Audio)
    (h0 : s.audio_fifo_ptr = 0) (k : Nat) : (run_ADC d smp (512 * k) s).audio_fifo_ptr = 0 := by
  induction k with
  | zero => exact h0
  | succ k ih =>
    rw [run_ADC_succ_block]
    exact (run_ADC_block d hd _ _ ih).1

theorem next_put_eq (d : Decls) (hd : d.WellFormed) (p : Nat) (hp : p < d.MAX_AUDIO_BUFFERS) :
    next_put d p = (p + 1) % d.MAX_AUDIO_BUFFERS := by
  obtain ⟨hN, _, hput, _, _⟩ := hd
  unfold next_put
  split_ifs with h
  · have : p + 1 = d.MAX_AUDIO_BUFFERS := by omega
    rw [this, Nat.mod_self]
  · rw [Nat.mod_eq_of_lt (by omega), Nat.mod_eq_of_lt (by omega)]

theorem run_ADC_blocks_put (d : Decls) (hd : d.WellFormed) (smp : Nat → Nat) (s : Audio)
    (h0 : s.audio_fifo_ptr = 0) (hp : s.audio_fifo_put < d.MAX_AUDIO_BUFFERS) (k : Nat) :
    (run_ADC d smp (512 * k) s).audio_fifo_put = (s.audio_fifo_put + k) % d.MAX_AUDIO_BUFFERS := by
  induction k with
  | zero => exact (Nat.mod_eq_of_lt hp).symm
  | succ k ih =>
    rw [run_ADC_succ_block, (run_ADC_block d hd _ _ (run_ADC_blocks_ptr d hd smp s h0 k)).2.1, ih,
      next_put_eq d hd _ (Nat.mod_lt _ hd.1), Nat.mod_add_mod, Nat.add_assoc]

theorem run_ADC_blocks_ready (d : Decls) (hd : d.WellFormed) (smp : Nat → Nat) (s : Audio)
    (h0 : s.audio_fifo_ptr = 0) (hr : s.audio_fifo_ready ≤ d.MAX_AUDIO_BUFFERS - 1) (k : Nat) :
    (run_ADC d smp (512 * k) s).audio_fifo_ready =
      min (s.audio_fifo_ready + k) (d.MAX_AUDIO_BUFFERS - 1) := by
  induction k with
  | zero => simp [run_ADC, hr]
  | succ k ih =>
    rw [run_ADC_succ_block, (run_ADC_block d hd _ _ (run_ADC_blocks_ptr d hd smp s h0 k)).2.2.1, ih]
    obtain ⟨hN, _, _, hrm, _⟩ := hd
    split_ifs with h
    · rw [Nat.mod_eq_of_lt (by omega)]
      omega
    · omega

theorem run_ADC_blocks_frame_tick (d : Decls) (hd : d.WellFormed) (smp : Nat → Nat) (s : Audio)
    (h0 : s.audio_fifo_ptr = 0) (k : Nat) :
    (run_ADC d smp (512 * (k + 1)) s).frame_tick = 1 := by
  rw [run_ADC_succ_block]
  exact (run_ADC_block d hd _ _ (run_ADC_blocks_ptr d hd smp s h0 k)).2.2.2.1

/-- With `frame_tick` set at the start and nobody clearing it, every completed buffer counts
one missed frame. -/
theorem run_ADC_blocks_skipped_set (d : Decls) (hd : d.WellFormed) (smp : Nat → Nat) (s : Audio)
    (h0 : s.audio_fifo_ptr = 0) (hf : s.frame_tick ≠ 0) (k : Nat) :
    (run_ADC d smp (512 * k) s).frame_tick ≠ 0 ∧
    (run_ADC d smp (512 * k) s).skipped % d.skipped_mod = (s.skipped + k) % d.skipped_mod := by
  induction k with
  | zero => exact ⟨hf, rfl⟩
  | succ k ih =>
    refine ⟨by rw [run_ADC_blocks_frame_tick d hd smp s h0 k]; decide, ?_⟩
    rw [run_ADC_succ_block,
      (run_ADC_block d hd _ _ (run_ADC_blocks_ptr d hd smp s h0 k)).2.2.2.2.1, if_pos ih.1,
      Nat.mod_mod, Nat.add_mod, ih.2, ← Nat.add_mod, Nat.add_assoc]

/-- With `frame_tick` clear at the start and nobody clearing it afterwards, the first
completed buffer counts no missed frame and each later one counts one. -/
theorem run_ADC_blocks_skipped_clear (d : Decls) (hd : d.WellFormed) (smp : Nat → Nat) (s : Audio)
    (h0 : s.audio_fifo_ptr = 0) (hf : s.frame_tick = 0) (k : Nat) :
    (run_ADC d smp (512 * (k + 1)) s).skipped % d.skipped_mod =
      (s.skipped + k) % d.skipped_mod := by
  have hb := run_ADC_block d hd smp s h0
  have h512 : run_ADC d smp (512 * (k + 1)) s =
      run_ADC d (fun i => smp (512 + i)) (512 * k) (run_ADC d smp 512 s) := by
    rw [show 512 * (k + 1) = 512 + 512 * k by ring, run_ADC_add]
  rw [h512, (run_ADC_blocks_skipped_set d hd _ _ hb.1 (by rw [hb.2.2.2.1]; decide) k).2,
    hb.2.2.2.2.1, if_neg (by simp [hf])]

theorem mod_ne_of_lt_of_lt (a b n : Nat) (hab : a < b) (hbn : b < a + n) : a % n ≠ b % n := by
  intro h
  have h1 : (b - a) % n = 0 := Nat.sub_mod_eq_zero_of_mod_eq h.symm
  rw [Nat.mod_eq_of_lt (by omega)] at h1
  omega

/-- As long as no buffer is used twice, the completed buffers hold the samples written to
them: buffer `(p + j) % N` holds samples `512 * j`, ..., `512 * j + 511`. -/
theorem run_ADC_blocks_cells (d : Decls) (hd : d.WellFormed) (smp : Nat → Nat) (s : Audio)
    (h0 : s.audio_fifo_ptr = 0) (hp : s.audio_fifo_put < d.MAX_AUDIO_BUFFERS) (k : Nat)
    (hk : k ≤ d.MAX_AUDIO_BUFFERS) (j i : Nat) (hj : j < k) (hi : i < 512) :
    (run_ADC d smp (512 * k) s).audio_fifo ((s.audio_fifo_put + j) % d.MAX_AUDIO_BUFFERS) i =
      ad_data (smp (512 * j + i)) := by
  induction k with
  | zero => omega
  | succ k ih =>
    rw [run_ADC_succ_block, (run_ADC_block d hd _ _ (run_ADC_blocks_ptr d hd smp s h0 k)).2.2.2.2.2.2,
      run_ADC_blocks_put d hd smp s h0 hp k]
    by_cases hjk : j = k
    · subst hjk
      simp [hi]
    · have hne : (s.audio_fifo_put + j) % d.MAX_AUDIO_BUFFERS ≠
          (s.audio_fifo_put + k) % d.MAX_AUDIO_BUFFERS :=
        mod_ne_of_lt_of_lt _ _ _ (by omega) (by omega)
      rw [if_neg (fun h => hne h.1)]
      exact ih (by omega) (by omega)

theorem run_events_ready (d : Decls) (c : Audio → Audio)
    (hc : ∀ t, (c t).audio_fifo_ready ≤ t.audio_fifo_ready) (evs : List PoolEvent) (s : Audio)
    (hs : s.audio_fifo_ready ≤ d.MAX_AUDIO_BUFFERS - 1) :
    (run_events d c evs s).audio_fifo_ready ≤ d.MAX_AUDIO_BUFFERS - 1 := by
  induction evs generalizing s with
  | nil => exact hs
  | cons e es ih =>
    cases e with
    | adc x =>
      apply ih
      rw [ADC_ready]
      split_ifs with h
      · exact le_trans (Nat.mod_le _ _) (by omega)
      · exact hs
    | consumer => exact ih _ (le_trans (hc s) hs)

theorem run_ADC_skipped_lt (d : Decls) (hd : d.WellFormed) (smp : Nat → Nat) (s : Audio)
    (n : Nat) :
    (run_ADC d smp n s).skipped = s.skipped ∨ (run_ADC d smp n s).skipped < d.skipped_mod := by
  induction n with
  | zero => exact Or.inl rfl
  | succ n ih =>
    show (ADC_IRQHandler d (smp n) (run_ADC d smp n s)).skipped = _ ∨
      (ADC_IRQHandler d (smp n) (run_ADC d smp n s)).skipped < _
    rw [ADC_skipped]
    split_ifs with h
    · exact Or.inr (Nat.mod_lt _ hd.2.2.2.2)
    · exact ih

theorem max_upto_congr (f g : Nat → Nat) (n : Nat) (h : ∀ i, i < n → f i = g i) :
    max_upto f n = max_upto g n := by
  induction n with
  | zero => rfl
  | succ n ih =>
    simp only [max_upto]
    rw [ih (fun i hi => h i (by omega)), h n (by omega)]

/-- The peak level is the maximum of the part of the current buffer filled so far. -/
theorem run_ADC_peak (d : Decls) (hd : d.WellFormed) (smp : Nat → Nat) (s : Audio)
    (h0 : s.audio_fifo_ptr = 0) (hm : s.audio_max = 0) (n : Nat) :
    (run_ADC d smp n s).audio_fifo_ptr ≤ 511 ∧
    (run_ADC d smp n s).audio_max =
      max_upto (fun i => (run_ADC d smp n s).audio_fifo (run_ADC d smp n s).audio_fifo_put i)
        (run_ADC d smp n s).audio_fifo_ptr := by
  induction n with
  | zero => simp [run_ADC, h0, hm, max_upto]
  | succ n ih =>
    obtain ⟨ih1, ih2⟩ := ih
    show (ADC_IRQHandler d (smp n) (run_ADC d smp n s)).audio_fifo_ptr ≤ 511 ∧
      (ADC_IRQHandler d (smp n) (run_ADC d smp n s)).audio_max =
        max_upto (fun i => (ADC_IRQHandler d (smp n) (run_ADC d smp n s)).audio_fifo
          (ADC_IRQHandler d (smp n) (run_ADC d smp n s)).audio_fifo_put i)
          (ADC_IRQHandler d (smp n) (run_ADC d smp n s)).audio_fifo_ptr
    rw [ADC_ptr, ADC_audio_max, ADC_put, ADC_audio_fifo]
    by_cases h : (run_ADC d smp n s).audio_fifo_ptr = 511
    · simp [h, max_upto]
    · have hlt : (run_ADC d smp n s).audio_fifo_ptr + 1 < d.ptr_mod := by
        have := hd.2.1
        omega
      rw [if_neg h, if_neg h, if_neg h, Nat.mod_eq_of_lt hlt]
      refine ⟨by omega, ?_⟩
      simp only [max_upto]
      rw [ih2]
      congr 1
      · apply max_upto_congr
        intro i hi
        simp [store, Nat.ne_of_lt hi]
      · simp [store]

/-! ## The audio capture pipeline: properties -/

/-- C1, backpressure ceiling: from a state with `audio_fifo_ready ≤ MAX_AUDIO_BUFFERS - 1`
one invocation of `ADC_IRQHandler` leaves `audio_fifo_ready ≤ MAX_AUDIO_BUFFERS - 1`; it adds
exactly one when it completes a buffer (`audio_fifo_ptr = 511` on entry) and
`audio_fifo_ready < MAX_AUDIO_BUFFERS - 1`, and leaves it unchanged in every other case.
Hence no sequence of handler invocations and consumer actions (which never increase
`audio_fifo_ready`) takes it above `MAX_AUDIO_BUFFERS - 1`, neither from `s` nor from boot. -/
theorem ADC_IRQHandler_ready_ceiling (d : Decls) (hd : d.WellFormed) (c : Audio → Audio)
    (hc : ∀ t, (c t).audio_fifo_ready ≤ t.audio_fifo_ready) (s : Audio) (x : Nat)
    (hs : s.audio_fifo_ready ≤ d.MAX_AUDIO_BUFFERS - 1) (evs : List PoolEvent) :
    (ADC_IRQHandler d x s).audio_fifo_ready ≤ d.MAX_AUDIO_BUFFERS - 1 ∧
    (s.audio_fifo_ptr = 511 ∧ s.audio_fifo_ready < d.MAX_AUDIO_BUFFERS - 1 →
      (ADC_IRQHandler d x s).audio_fifo_ready = s.audio_fifo_ready + 1) ∧
    (¬ (s.audio_fifo_ptr = 511 ∧ s.audio_fifo_ready < d.MAX_AUDIO_BUFFERS - 1) →
      (ADC_IRQHandler d x s).audio_fifo_ready = s.audio_fifo_ready) ∧
    (run_events d c evs s).audio_fifo_ready ≤ d.MAX_AUDIO_BUFFERS - 1 ∧
    (run_events d c evs Audio.boot).audio_fifo_ready ≤ d.MAX_AUDIO_BUFFERS - 1 := by
  have hrm := hd.2.2.2.1
  refine ⟨?_, ?_, ?_, run_events_ready d c hc evs s hs,
    run_events_ready d c hc evs Audio.boot (Nat.zero_le _)⟩
  · rw [ADC_ready]
    split_ifs with h
    · exact le_trans (Nat.mod_le _ _) (by omega)
    · exact hs
  · intro h
    rw [ADC_ready, if_pos h]
    exact Nat.mod_eq_of_lt (by omega)
  · intro h
    rw [ADC_ready, if_neg h]

/-- Witness of C1: six buffers, four of them ready, the last sample of a buffer arriving; the
consumer takes one buffer at a time. -/
theorem ADC_IRQHandler_ready_ceiling_witness :
    (ADC_IRQHandler decls6 0x8000 Audio.last_sample).audio_fifo_ready ≤
        decls6.MAX_AUDIO_BUFFERS - 1 ∧
    (Audio.last_sample.audio_fifo_ptr = 511 ∧
      Audio.last_sample.audio_fifo_ready < decls6.MAX_AUDIO_BUFFERS - 1 →
      (ADC_IRQHandler decls6 0x8000 Audio.last_sample).audio_fifo_ready =
        Audio.last_sample.audio_fifo_ready + 1) ∧
    (¬ (Audio.last_sample.audio_fifo_ptr = 511 ∧
        Audio.last_sample.audio_fifo_ready < decls6.MAX_AUDIO_BUFFERS - 1) →
      (ADC_IRQHandler decls6 0x8000 Audio.last_sample).audio_fifo_ready =
        Audio.last_sample.audio_fifo_ready) ∧
    (run_events decls6 take_one [PoolEvent.adc 0x1200, PoolEvent.consumer, PoolEvent.adc 0x3400]
      Audio.last_sample).audio_fifo_ready ≤ decls6.MAX_AUDIO_BUFFERS - 1 ∧
    (run_events decls6 take_one [PoolEvent.adc 0x1200, PoolEvent.consumer, PoolEvent.adc 0x3400]
      Audio.boot).audio_fifo_ready ≤ decls6.MAX_AUDIO_BUFFERS - 1 :=
  ADC_IRQHandler_ready_ceiling decls6 (by decide) take_one
    (fun t => Nat.sub_le t.audio_fifo_ready 1) Audio.last_sample 0x8000 (by decide)
    [PoolEvent.adc 0x1200, PoolEvent.consumer, PoolEvent.adc 0x3400]

theorem eq_of_mod_eq_of_lt (a b s0 m : Nat) (h : a % m = b % m) (hb : b < m) (hs : s0 ≤ b)
    (ha : a = s0 ∨ a < m) : a = b := by
  have ham : a < m := by
    rcases ha with h1 | h1
    · omega
    · exact h1
  rw [Nat.mod_eq_of_lt ham, Nat.mod_eq_of_lt hb] at h
  exact h

/-- C2, as stated, fails: the handler keeps no overrun counter.  Its two counters are
`skipped` and `audio_fifo_ready`; from boot with six buffers, silent samples and a consumer
that never acts, neither stays unchanged during the first five completions and then grows by
one per completion: `skipped` already grows at the second completion and
`audio_fifo_ready` does not grow at the sixth. -/
theorem overrun_counter_absent :
    ¬ ((∀ k, k ≤ decls6.MAX_AUDIO_BUFFERS - 1 →
          (run_ADC decls6 (fun _ => 0) (512 * k) Audio.boot).skipped = Audio.boot.skipped) ∧
        (∀ k, decls6.MAX_AUDIO_BUFFERS ≤ k →
          (run_ADC decls6 (fun _ => 0) (512 * k) Audio.boot).skipped =
            (run_ADC decls6 (fun _ => 0) (512 * (k - 1)) Audio.boot).skipped + 1)) ∧
    ¬ ((∀ k, k ≤ decls6.MAX_AUDIO_BUFFERS - 1 →
          (run_ADC decls6 (fun _ => 0) (512 * k) Audio.boot).audio_fifo_ready =
            Audio.boot.audio_fifo_ready) ∧
        (∀ k, decls6.MAX_AUDIO_BUFFERS ≤ k →
          (run_ADC decls6 (fun _ => 0) (512 * k) Audio.boot).audio_fifo_ready =
            (run_ADC decls6 (fun _ => 0) (512 * (k - 1)) Audio.boot).audio_fifo_ready + 1)) := by
  have hd : decls6.WellFormed := by decide
  constructor
  · rintro ⟨h1, -⟩
    have h2 := h1 2 (by decide)
    have h3 := run_ADC_blocks_skipped_clear decls6 hd (fun _ => 0) Audio.boot rfl rfl 1
    have h4 := eq_of_mod_eq_of_lt _ _ Audio.boot.skipped _ h3 (by decide) (by decide)
      (run_ADC_skipped_lt decls6 hd (fun _ => 0) Audio.boot (512 * 2))
    rw [h4] at h2
    exact absurd h2 (by decide)
  · rintro ⟨-, h1⟩
    have h2 := h1 6 (by decide)
    rw [run_ADC_blocks_ready decls6 hd (fun _ => 0) Audio.boot rfl (by decide) 6,
      run_ADC_blocks_ready decls6 hd (fun _ => 0) Audio.boot rfl (by decide) (6 - 1)] at h2
    exact absurd h2 (by decide)

/-- C2, amended: from an empty pool (`audio_fifo_ready = 0`, `audio_fifo_ptr = 0`) and with no
consumer action, `audio_fifo_ready` equals the number of completions for the first
`MAX_AUDIO_BUFFERS - 1` completions and stays at `MAX_AUDIO_BUFFERS - 1` from then on: the
further completions are not counted anywhere.  The only counter the handler increments,
`skipped`, follows `frame_tick` and not the pool: the first completion increments it exactly
when `frame_tick` was set at the start, and every later completion increments it (modulo the
width of `skipped`). -/
theorem ready_saturates_skipped_follows_tick (d : Decls) (hd : d.WellFormed) (smp : Nat → Nat)
    (s : Audio) (h0 : s.audio_fifo_ptr = 0) (hr : s.audio_fifo_ready = 0) (k : Nat) :
    (k ≤ d.MAX_AUDIO_BUFFERS - 1 → (run_ADC d smp (512 * k) s).audio_fifo_ready = k) ∧
    (d.MAX_AUDIO_BUFFERS - 1 ≤ k →
      (run_ADC d smp (512 * k) s).audio_fifo_ready = d.MAX_AUDIO_BUFFERS - 1) ∧
    (run_ADC d smp (512 * 1) s).skipped =
      (if s.frame_tick ≠ 0 then (s.skipped + 1) % d.skipped_mod else s.skipped) ∧
    (1 ≤ k → (run_ADC d smp (512 * (k + 1)) s).skipped =
      ((run_ADC d smp (512 * k) s).skipped + 1) % d.skipped_mod) := by
  have hready := run_ADC_blocks_ready d hd smp s h0 (by omega) k
  rw [hr, Nat.zero_add] at hready
  refine ⟨fun hk => by rw [hready]; omega, fun hk => by rw [hready]; omega, ?_, ?_⟩
  · exact (run_ADC_block d hd smp s h0).2.2.2.2.1
  · intro hk
    obtain ⟨j, rfl⟩ : ∃ j, k = j + 1 := ⟨k - 1, by omega⟩
    rw [run_ADC_succ_block d smp (j + 1),
      (run_ADC_block d hd _ _ (run_ADC_blocks_ptr d hd smp s h0 (j + 1))).2.2.2.2.1,
      run_ADC_blocks_frame_tick d hd smp s h0 j]
    simp

/-- Witness of the amended C2: boot, six buffers, seven completions. -/
theorem ready_saturates_skipped_follows_tick_witness :
    (7 ≤ decls6.MAX_AUDIO_BUFFERS - 1 →
      (run_ADC decls6 (fun i => 256 * i) (512 * 7) Audio.boot).audio_fifo_ready = 7) ∧
    (decls6.MAX_AUDIO_BUFFERS - 1 ≤ 7 →
      (run_ADC decls6 (fun i => 256 * i) (512 * 7) Audio.boot).audio_fifo_ready =
        decls6.MAX_AUDIO_BUFFERS - 1) ∧
    (run_ADC decls6 (fun i => 256 * i) (512 * 1) Audio.boot).skipped =
      (if Audio.boot.frame_tick ≠ 0 then (Audio.boot.skipped + 1) % decls6.skipped_mod
        else Audio.boot.skipped) ∧
    (1 ≤ 7 → (run_ADC decls6 (fun i => 256 * i) (512 * (7 + 1)) Audio.boot).skipped =
      ((run_ADC decls6 (fun i => 256 * i) (512 * 7) Audio.boot).skipped + 1) %
        decls6.skipped_mod) :=
  ready_saturates_skipped_follows_tick decls6 (by decide) (fun i => 256 * i) Audio.boot rfl rfl 7

/-- C3, circular advance of the put index: from `audio_fifo_put = p < MAX_AUDIO_BUFFERS` and
`audio_fifo_ptr = 0`, after `512 * k` invocations with any samples
`audio_fifo_put = (p + k) % MAX_AUDIO_BUFFERS`, so `MAX_AUDIO_BUFFERS` consecutive completions
use pairwise different buffers.  In any state `t` an invocation that does not enter with
`audio_fifo_ptr = 511` leaves `audio_fifo_put` alone, and one that does moves it by one step,
from `MAX_AUDIO_BUFFERS - 1` to `0`. -/
theorem audio_fifo_put_circular (d : Decls) (hd : d.WellFormed) (smp : Nat → Nat) (s : Audio)
    (h0 : s.audio_fifo_ptr = 0) (hp : s.audio_fifo_put < d.MAX_AUDIO_BUFFERS) (k : Nat)
    (t : Audio) (x : Nat) :
    (run_ADC d smp (512 * k) s).audio_fifo_put = (s.audio_fifo_put + k) % d.MAX_AUDIO_BUFFERS ∧
    (∀ j, 0 < j → j < d.MAX_AUDIO_BUFFERS →
      (run_ADC d smp (512 * (k + j)) s).audio_fifo_put ≠
        (run_ADC d smp (512 * k) s).audio_fifo_put) ∧
    (t.audio_fifo_ptr ≠ 511 → (ADC_IRQHandler d x t).audio_fifo_put = t.audio_fifo_put) ∧
    (t.audio_fifo_ptr = 511 → t.audio_fifo_put < d.MAX_AUDIO_BUFFERS - 1 →
      (ADC_IRQHandler d x t).audio_fifo_put = t.audio_fifo_put + 1) ∧
    (t.audio_fifo_ptr = 511 → t.audio_fifo_put = d.MAX_AUDIO_BUFFERS - 1 →
      (ADC_IRQHandler d x t).audio_fifo_put = 0) := by
  refine ⟨run_ADC_blocks_put d hd smp s h0 hp k, ?_, ?_, ?_, ?_⟩
  · intro j hj0 hjN
    rw [run_ADC_blocks_put d hd smp s h0 hp, run_ADC_blocks_put d hd smp s h0 hp]
    exact (mod_ne_of_lt_of_lt _ _ _ (by omega) (by omega)).symm
  · intro h
    rw [ADC_put, if_neg h]
  · intro h hlt
    have := hd.2.2.1
    rw [ADC_put, if_pos h, next_put, if_neg (by omega)]
    exact Nat.mod_eq_of_lt (by omega)
  · intro h he
    rw [ADC_put, if_pos h, next_put, if_pos he]

/-- Witness of C3: six buffers, starting at buffer 0, eight completions. -/
theorem audio_fifo_put_circular_witness :
    (run_ADC decls6 (fun i => 256 * i) (512 * 8) Audio.boot).audio_fifo_put =
      (Audio.boot.audio_fifo_put + 8) % decls6.MAX_AUDIO_BUFFERS :=
  (audio_fifo_put_circular decls6 (by decide) (fun i => 256 * i) Audio.boot rfl (by decide) 8
    Audio.last_sample 0x8000).1

/-- C4, missed-frame counting: from a state with `frame_tick` set and `audio_fifo_ptr = 0`,
with nobody clearing `frame_tick`, after `512 * k` invocations `skipped` has grown by `k`
modulo the width of the counter, hence by exactly `k` when `skipped + k` does not wrap, and
`frame_tick` is still set.  In any state `t` an invocation that does not complete a buffer, or
completes one while `frame_tick` is clear, leaves `skipped` alone. -/
theorem skipped_counts_missed_frames (d : Decls) (hd : d.WellFormed) (smp : Nat → Nat)
    (s : Audio) (h0 : s.audio_fifo_ptr = 0) (hf : s.frame_tick ≠ 0) (k : Nat)
    (t : Audio) (x : Nat) :
    (run_ADC d smp (512 * k) s).skipped % d.skipped_mod = (s.skipped + k) % d.skipped_mod ∧
    (s.skipped + k < d.skipped_mod → (run_ADC d smp (512 * k) s).skipped = s.skipped + k) ∧
    (run_ADC d smp (512 * k) s).frame_tick ≠ 0 ∧
    (t.audio_fifo_ptr ≠ 511 ∨ t.frame_tick = 0 →
      (ADC_IRQHandler d x t).skipped = t.skipped) := by
  obtain ⟨h1, h2⟩ := run_ADC_blocks_skipped_set d hd smp s h0 hf k
  refine ⟨h2, ?_, h1, ?_⟩
  · intro hlt
    exact eq_of_mod_eq_of_lt _ _ s.skipped _ h2 hlt (by omega) (run_ADC_skipped_lt d hd smp s _)
  · intro h
    rw [ADC_skipped, if_neg]
    rintro ⟨ha, hb⟩
    rcases h with h | h
    · exact h ha
    · exact hb h

/-- Witness of C4: boot with `frame_tick` left set, three completions. -/
theorem skipped_counts_missed_frames_witness :
    (run_ADC decls6 (fun i => 256 * i) (512 * 3) Audio.tick_pending).skipped =
      Audio.tick_pending.skipped + 3 :=
  (skipped_counts_missed_frames decls6 (by decide) (fun i => 256 * i) Audio.tick_pending rfl
    (by decide) 3 Audio.last_sample 0x8000).2.1 (by decide)

/-- C5, latency tolerance: from an empty pool (`audio_fifo_ready = 0`, `audio_fifo_ptr = 0`,
the consumer about to read buffer `audio_fifo_put = p`) and with no drain, after
`k ≤ MAX_AUDIO_BUFFERS - 1` completions `audio_fifo_ready = k`, the `j`-th completed buffer
`(p + j) % MAX_AUDIO_BUFFERS` still holds the 512 samples written to it, and the buffer being
filled is none of these `k` buffers. -/
theorem undrained_buffers_intact (d : Decls) (hd : d.WellFormed) (smp : Nat → Nat) (s : Audio)
    (h0 : s.audio_fifo_ptr = 0) (hr : s.audio_fifo_ready = 0)
    (hp : s.audio_fifo_put < d.MAX_AUDIO_BUFFERS) (k : Nat) (hk : k ≤ d.MAX_AUDIO_BUFFERS - 1) :
    (run_ADC d smp (512 * k) s).audio_fifo_ready = k ∧
    (∀ j i, j < k → i < 512 →
      (run_ADC d smp (512 * k) s).audio_fifo ((s.audio_fifo_put + j) % d.MAX_AUDIO_BUFFERS) i =
        ad_data (smp (512 * j + i))) ∧
    (∀ j, j < k → (run_ADC d smp (512 * k) s).audio_fifo_put ≠
      (s.audio_fifo_put + j) % d.MAX_AUDIO_BUFFERS) := by
  have hN := hd.1
  refine ⟨?_, ?_, ?_⟩
  · rw [run_ADC_blocks_ready d hd smp s h0 (by omega) k, hr]
    omega
  · intro j i hj hi
    exact run_ADC_blocks_cells d hd smp s h0 hp k (by omega) j i hj hi
  · intro j hj
    rw [run_ADC_blocks_put d hd smp s h0 hp k]
    exact (mod_ne_of_lt_of_lt _ _ _ (by omega) (by omega)).symm

/-- Witness of C5: boot, six buffers, five completions without a drain. -/
theorem undrained_buffers_intact_witness :
    (run_ADC decls6 (fun i => 256 * i) (512 * 5) Audio.boot).audio_fifo_ready = 5 ∧
    (∀ j i, j < 5 → i < 512 →
      (run_ADC decls6 (fun i => 256 * i) (512 * 5) Audio.boot).audio_fifo
          ((Audio.boot.audio_fifo_put + j) % decls6.MAX_AUDIO_BUFFERS) i =
        ad_data (256 * (512 * j + i))) ∧
    (∀ j, j < 5 → (run_ADC decls6 (fun i => 256 * i) (512 * 5) Audio.boot).audio_fifo_put ≠
      (Audio.boot.audio_fifo_put + j) % decls6.MAX_AUDIO_BUFFERS) :=
  undrained_buffers_intact decls6 (by decide) (fun i => 256 * i) Audio.boot rfl rfl (by decide) 5
    (by decide)

/-- C6, peak audio level: from `audio_fifo_ptr = 0` and `audio_max = 0`, after any number `n`
of invocations with any samples, `audio_max` is the maximum of the cells at offsets
`[0, audio_fifo_ptr)` of the buffer being filled, which is `0` when `audio_fifo_ptr = 0`; and
it is `0` right after every buffer completion, that is after every invocation entered with
`audio_fifo_ptr = 511`. -/
theorem audio_max_is_peak (d : Decls) (hd : d.WellFormed) (smp : Nat → Nat) (s : Audio)
    (h0 : s.audio_fifo_ptr = 0) (hm : s.audio_max = 0) (n : Nat) :
    (run_ADC d smp n s).audio_max =
      max_upto (fun i => (run_ADC d smp n s).audio_fifo (run_ADC d smp n s).audio_fifo_put i)
        (run_ADC d smp n s).audio_fifo_ptr ∧
    ((run_ADC d smp n s).audio_fifo_ptr = 0 → (run_ADC d smp n s).audio_max = 0) ∧
    ((run_ADC d smp n s).audio_fifo_ptr = 511 → (run_ADC d smp (n + 1) s).audio_max = 0) ∧
    (run_ADC d smp (512 * n) s).audio_max = 0 := by
  have h := (run_ADC_peak d hd smp s h0 hm n).2
  refine ⟨h, ?_, ?_, ?_⟩
  · intro hz
    rw [h, hz]
    rfl
  · intro h511
    show (ADC_IRQHandler d (smp n) (run_ADC d smp n s)).audio_max = 0
    rw [ADC_audio_max, if_pos h511]
  · cases n with
    | zero => exact hm
    | succ n =>
      rw [run_ADC_succ_block]
      exact (run_ADC_block d hd _ _ (run_ADC_blocks_ptr d hd smp s h0 n)).2.2.2.2.2.1

/-- Witness of C6: boot, six buffers, 700 samples. -/
theorem audio_max_is_peak_witness :
    (run_ADC decls6 (fun i => 256 * i) 700 Audio.boot).audio_max =
      max_upto (fun i => (run_ADC decls6 (fun i => 256 * i) 700 Audio.boot).audio_fifo
          (run_ADC decls6 (fun i => 256 * i) 700 Audio.boot).audio_fifo_put i)
        (run_ADC decls6 (fun i => 256 * i) 700 Audio.boot).audio_fifo_ptr :=
  (audio_max_is_peak decls6 (by decide) (fun i => 256 * i) Audio.boot rfl rfl 700).1

/-! ## One slow-poll -/

theorem try_mount_spec (d : Decls) (mount : Nat) (m : Main) :
    (try_mount d mount m).1.sd_ok =
      (if m.sd_ok = 0 then (if mount = d.FR_OK then 1 else 0) else m.sd_ok) ∧
    (try_mount d mount m).1.gbcam_ok = m.gbcam_ok ∧
    (try_mount d mount m).1.sd_ok_prev = m.sd_ok_prev ∧
    (try_mount d mount m).1.gbcam_ok_prev = m.gbcam_ok_prev ∧
    (try_mount d mount m).2 = (if m.sd_ok = 0 then [Call.FCLK_SLOW, Call.f_mount] else []) := by
  unfold try_mount
  simp only []
  split_ifs <;> simp_all

theorem probe_gbcam_spec (detect : Nat) (m : Main) :
    (probe_gbcam detect m).1.sd_ok = m.sd_ok ∧
    (probe_gbcam detect m).1.gbcam_ok =
      (if m.gbcam_ok = 0 then (if detect = 0 then 1 else 0) else m.gbcam_ok) ∧
    (probe_gbcam detect m).1.sd_ok_prev = m.sd_ok_prev ∧
    (probe_gbcam detect m).1.gbcam_ok_prev = m.gbcam_ok_prev ∧
    (probe_gbcam detect m).2 = (if m.gbcam_ok = 0 then [Call.gbcam_detect] else []) := by
  unfold probe_gbcam
  split_ifs <;> simp_all

theorem notify_spec (cb : Main → Main) (hcb : KeepsFlags cb) (m : Main) :
    (notify cb m).1.sd_ok = m.sd_ok ∧
    (notify cb m).1.gbcam_ok = m.gbcam_ok ∧
    (notify cb m).1.sd_ok_prev = m.sd_ok_prev ∧
    (notify cb m).1.gbcam_ok_prev = m.gbcam_ok_prev ∧
    (notify cb m).2 =
      (if m.sd_ok ≠ m.sd_ok_prev ∨ m.gbcam_ok ≠ m.gbcam_ok_prev then [Call.slot_func]
        else []) := by
  unfold notify
  split_ifs
  · exact ⟨(hcb m).1, (hcb m).2.1, (hcb m).2.2.1, (hcb m).2.2.2, rfl⟩
  · exact ⟨rfl, rfl, rfl, rfl, rfl⟩

/-- The flags after a slow-poll, when the callback keeps them. -/
theorem slow_poll_flags (d : Decls) (cb : Main → Main) (hcb : KeepsFlags cb)
    (mount detect : Nat) (m : Main) :
    (slow_poll d cb mount detect m).1.sd_ok =
      (if m.sd_ok = 0 then (if mount = d.FR_OK then 1 else 0) else m.sd_ok) ∧
    (slow_poll d cb mount detect m).1.gbcam_ok =
      (if m.gbcam_ok = 0 then (if detect = 0 then 1 else 0) else m.gbcam_ok) ∧
    (slow_poll d cb mount detect m).1.sd_ok_prev = (slow_poll d cb mount detect m).1.sd_ok ∧
    (slow_poll d cb mount detect m).1.gbcam_ok_prev =
      (slow_poll d cb mount detect m).1.gbcam_ok := by
  unfold slow_poll
  simp only []
  refine ⟨?_, ?_, trivial, trivial⟩
  · rw [(notify_spec cb hcb _).1, (probe_gbcam_spec _ _).1, (try_mount_spec _ _ _).1]
  · rw [(notify_spec cb hcb _).2.1, (probe_gbcam_spec _ _).2.1, (try_mount_spec _ _ _).2.1]

/-- The calls of a slow-poll, when the callback keeps the flags. -/
theorem slow_poll_calls (d : Decls) (cb : Main → Main) (hcb : KeepsFlags cb)
    (mount detect : Nat) (m : Main) :
    (slow_poll d cb mount detect m).2 =
      (if m.sd_ok = 0 then [Call.FCLK_SLOW, Call.f_mount] else []) ++
      (if m.gbcam_ok = 0 then [Call.gbcam_detect] else []) ++
      (if (slow_poll d cb mount detect m).1.sd_ok ≠ m.sd_ok_prev ∨
          (slow_poll d cb mount detect m).1.gbcam_ok ≠ m.gbcam_ok_prev then [Call.slot_func]
        else []) ++
      (if (slow_poll d cb mount detect m).1.sd_ok ≠ m.sd_ok_prev then
        [Call.FCLK_FAST,
          if (slow_poll d cb mount detect m).1.sd_ok ≠ 0 then
            Call.lcd_paint 218 0 Icon.icon_sdok 1
          else Call.lcd_paint 218 0 Icon.icon_sdnok 1]
        else []) ++
      (if (slow_poll d cb mount detect m).1.gbcam_ok ≠ m.gbcam_ok_prev then
        [Call.FCLK_FAST,
          if (slow_poll d cb mount detect m).1.gbcam_ok ≠ 0 then
            Call.lcd_paint 184 0 Icon.icon_camok 1
          else Call.lcd_paint 184 0 Icon.icon_camnok 1]
        else []) := by
  have e1 : ∀ m0, (try_mount d mount m0).1.sd_ok_prev = m0.sd_ok_prev :=
    fun m0 => (try_mount_spec d mount m0).2.2.1
  have e2 : ∀ m0, (try_mount d mount m0).1.gbcam_ok_prev = m0.gbcam_ok_prev :=
    fun m0 => (try_mount_spec d mount m0).2.2.2.1
  have e3 : ∀ m0, (probe_gbcam detect m0).1.sd_ok_prev = m0.sd_ok_prev :=
    fun m0 => (probe_gbcam_spec detect m0).2.2.1
  have e4 : ∀ m0, (probe_gbcam detect m0).1.gbcam_ok_prev = m0.gbcam_ok_prev :=
    fun m0 => (probe_gbcam_spec detect m0).2.2.2.1
  have e5 : ∀ m0, (probe_gbcam detect m0).1.sd_ok = m0.sd_ok :=
    fun m0 => (probe_gbcam_spec detect m0).1
  have e6 : ∀ m0, (try_mount d mount m0).1.gbcam_ok = m0.gbcam_ok :=
    fun m0 => (try_mount_spec d mount m0).2.1
  have n1 := fun m0 => (notify_spec cb hcb m0).1
  have n2 := fun m0 => (notify_spec cb hcb m0).2.1
  have n3 := fun m0 => (notify_spec cb hcb m0).2.2.1
  have n4 := fun m0 => (notify_spec cb hcb m0).2.2.2.1
  have n5 := fun m0 => (notify_spec cb hcb m0).2.2.2.2
  unfold slow_poll draw_sd draw_cam
  simp only [n1, n2, n3, n4, n5, e1, e2, e3, e4, e5, e6,
    (try_mount_spec d mount _).2.2.2.2, (probe_gbcam_spec detect _).2.2.2.2]

theorem filter_ite_nil (p : Call → Bool) (c : Prop) [Decidable c] (l : List Call) :
    (if c then l else []).filter p = if c then l.filter p else [] := by
  split_ifs <;> rfl

theorem count_ite_nil (a : Call) (c : Prop) [Decidable c] (l : List Call) :
    (if c then l else []).count a = if c then l.count a else 0 := by
  split_ifs <;> rfl

theorem filter_pair_keep (p : Call → Bool) (c : Prop) [Decidable c] (x y : Call)
    (h0 : p Call.FCLK_FAST = false) (hx : p x = true) (hy : p y = true) :
    [Call.FCLK_FAST, if c then x else y].filter p = [if c then x else y] := by
  split_ifs <;> simp [List.filter, h0, hx, hy]

theorem filter_pair_drop (p : Call → Bool) (c : Prop) [Decidable c] (x y : Call)
    (h0 : p Call.FCLK_FAST = false) (hx : p x = false) (hy : p y = false) :
    [Call.FCLK_FAST, if c then x else y].filter p = [] := by
  split_ifs <;> simp [List.filter, h0, hx, hy]

theorem slow_poll_cam_icons (d : Decls) (cb : Main → Main) (hcb : KeepsFlags cb)
    (mount detect : Nat) (m : Main) :
    (slow_poll d cb mount detect m).2.filter is_cam_icon =
      (if (slow_poll d cb mount detect m).1.gbcam_ok ≠ m.gbcam_ok_prev then
          [if (slow_poll d cb mount detect m).1.gbcam_ok ≠ 0 then
              Call.lcd_paint 184 0 Icon.icon_camok 1
            else Call.lcd_paint 184 0 Icon.icon_camnok 1]
          else []) := by
  rw [slow_poll_calls d cb hcb]
  simp only [List.filter_append, filter_ite_nil]
  rw [filter_pair_drop is_cam_icon _ (Call.lcd_paint 218 0 Icon.icon_sdok 1)
    (Call.lcd_paint 218 0 Icon.icon_sdnok 1) rfl rfl rfl,
    filter_pair_keep is_cam_icon _ (Call.lcd_paint 184 0 Icon.icon_camok 1)
    (Call.lcd_paint 184 0 Icon.icon_camnok 1) rfl rfl rfl]
  simp [List.filter, is_cam_icon]

theorem slow_poll_sd_icons (d : Decls) (cb : Main → Main) (hcb : KeepsFlags cb)
    (mount detect : Nat) (m : Main) :
    (slow_poll d cb mount detect m).2.filter is_sd_icon =
      (if (slow_poll d cb mount detect m).1.sd_ok ≠ m.sd_ok_prev then
          [if (slow_poll d cb mount detect m).1.sd_ok ≠ 0 then
              Call.lcd_paint 218 0 Icon.icon_sdok 1
            else Call.lcd_paint 218 0 Icon.icon_sdnok 1]
          else []) := by
  rw [slow_poll_calls d cb hcb]
  simp only [List.filter_append, filter_ite_nil]
  rw [filter_pair_keep is_sd_icon _ (Call.lcd_paint 218 0 Icon.icon_sdok 1)
    (Call.lcd_paint 218 0 Icon.icon_sdnok 1) rfl rfl rfl,
    filter_pair_drop is_sd_icon _ (Call.lcd_paint 184 0 Icon.icon_camok 1)
    (Call.lcd_paint 184 0 Icon.icon_camnok 1) rfl rfl rfl]
  simp [List.filter, is_sd_icon]

/-- How often a slow-poll calls the callback, `f_mount` and `gbcam_detect`. -/
theorem slow_poll_count (d : Decls) (cb : Main → Main) (hcb : KeepsFlags cb)
    (mount detect : Nat) (m : Main) :
    (slow_poll d cb mount detect m).2.count Call.slot_func =
      (if (slow_poll d cb mount detect m).1.sd_ok ≠ m.sd_ok_prev ∨
          (slow_poll d cb mount detect m).1.gbcam_ok ≠ m.gbcam_ok_prev then 1 else 0) ∧
    (slow_poll d cb mount detect m).2.count Call.f_mount = (if m.sd_ok = 0 then 1 else 0) ∧
    (slow_poll d cb mount detect m).2.count Call.gbcam_detect =
      (if m.gbcam_ok = 0 then 1 else 0) := by
  rw [slow_poll_calls d cb hcb]
  have hne : ∀ (c : Prop) [Decidable c] (a x y : Call), x ≠ a → y ≠ a →
      List.count a [Call.FCLK_FAST, if c then x else y] = if Call.FCLK_FAST = a then 1 else 0 := by
    intro c _ a x y hx hy
    split_ifs <;> simp_all [List.count_cons]
  refine ⟨?_, ?_, ?_⟩ <;>
  · simp only [List.count_append, count_ite_nil]
    rw [hne _ _ _ _ (by decide) (by decide), hne _ _ _ _ (by decide) (by decide)]
    simp [List.count_cons]

/-- A slow-poll is edge triggered: the callback runs once when a flag differs from its shadow
and an icon is drawn for each flag that differs. -/
theorem slow_poll_observed (d : Decls) (cb : Main → Main) (hcb : KeepsFlags cb)
    (mount detect : Nat) (m : Main) :
    observed (slow_poll d cb mount detect m).2 =
      ((if (slow_poll d cb mount detect m).1.sd_ok ≠ m.sd_ok_prev ∨
          (slow_poll d cb mount detect m).1.gbcam_ok ≠ m.gbcam_ok_prev then 1 else 0),
        (if (slow_poll d cb mount detect m).1.sd_ok ≠ m.sd_ok_prev then
          [if (slow_poll d cb mount detect m).1.sd_ok ≠ 0 then
              Call.lcd_paint 218 0 Icon.icon_sdok 1
            else Call.lcd_paint 218 0 Icon.icon_sdnok 1]
          else []) ++
        (if (slow_poll d cb mount detect m).1.gbcam_ok ≠ m.gbcam_ok_prev then
          [if (slow_poll d cb mount detect m).1.gbcam_ok ≠ 0 then
              Call.lcd_paint 184 0 Icon.icon_camok 1
            else Call.lcd_paint 184 0 Icon.icon_camnok 1]
          else [])) := by
  unfold observed icons_drawn
  rw [(slow_poll_count d cb hcb mount detect m).1]
  congr 1
  rw [slow_poll_calls d cb hcb]
  simp only [List.filter_append, filter_ite_nil]
  rw [filter_pair_keep _ _ (Call.lcd_paint 218 0 Icon.icon_sdok 1)
    (Call.lcd_paint 218 0 Icon.icon_sdnok 1) rfl rfl rfl,
    filter_pair_keep _ _ (Call.lcd_paint 184 0 Icon.icon_camok 1)
    (Call.lcd_paint 184 0 Icon.icon_camnok 1) rfl rfl rfl]
  simp [List.filter, is_sd_icon, is_cam_icon]

/-- A slow-poll that finds both flags equal to their shadows, with storage mounted and the
probe (if consulted) reporting absence, changes no flag, calls no callback and draws nothing. -/
theorem slow_poll_quiet (d : Decls) (cb : Main → Main) (hcb : KeepsFlags cb)
    (mount detect : Nat) (m : Main) (h1 : m.sd_ok ≠ 0) (h2 : m.sd_ok_prev = m.sd_ok)
    (h3 : m.gbcam_ok_prev = m.gbcam_ok) (h4 : m.gbcam_ok = 0 → detect ≠ 0) :
    (slow_poll d cb mount detect m).1.sd_ok = m.sd_ok ∧
    (slow_poll d cb mount detect m).1.gbcam_ok = m.gbcam_ok ∧
    observed (slow_poll d cb mount detect m).2 = (0, []) := by
  obtain ⟨f1, f2, -, -⟩ := slow_poll_flags d cb hcb mount detect m
  have e1 : (slow_poll d cb mount detect m).1.sd_ok = m.sd_ok := by rw [f1, if_neg h1]
  have e2 : (slow_poll d cb mount detect m).1.gbcam_ok = m.gbcam_ok := by
    rw [f2]
    split_ifs with ha hb
    · exact absurd hb (h4 ha)
    · exact ha.symm
    · rfl
  refine ⟨e1, e2, ?_⟩
  rw [slow_poll_observed d cb hcb, e1, e2, h2, h3]
  simp

theorem slow_polls_calls (d : Decls) (cb : Main → Main) (mount detect : Nat)
    (os : List (Nat × Nat)) (m : Main) :
    (slow_polls d cb ((mount, detect) :: os) m).2 =
      (slow_poll d cb mount detect m).2 ::
        (slow_polls d cb os (slow_poll d cb mount detect m).1).2 := rfl

theorem slow_polls_state (d : Decls) (cb : Main → Main) (mount detect : Nat)
    (os : List (Nat × Nat)) (m : Main) :
    (slow_polls d cb ((mount, detect) :: os) m).1 =
      (slow_polls d cb os (slow_poll d cb mount detect m).1).1 := rfl

theorem slow_polls_quiet (d : Decls) (cb : Main → Main) (hcb : KeepsFlags cb) (det : Nat)
    (later : List Nat) (m : Main) (h1 : m.sd_ok ≠ 0) (h2 : m.sd_ok_prev = m.sd_ok)
    (h3 : m.gbcam_ok_prev = m.gbcam_ok) (h4 : m.gbcam_ok = 0 → det ≠ 0) :
    (slow_polls d cb (later.map (fun f => (f, det))) m).2.map observed =
      later.map (fun _ => (0, [])) := by
  induction later generalizing m with
  | nil => rfl
  | cons f fs ih =>
    obtain ⟨q1, q2, q3⟩ := slow_poll_quiet d cb hcb f det m h1 h2 h3 h4
    obtain ⟨-, -, p1, p2⟩ := slow_poll_flags d cb hcb f det m
    rw [List.map_cons, slow_polls_calls, List.map_cons, q3]
    rw [ih (slow_poll d cb f det m).1 (by rw [q1]; exact h1) p1 p2 (by rw [q2]; exact h4)]
    rfl

theorem slow_polls_length (d : Decls) (cb : Main → Main) (os : List (Nat × Nat)) (m : Main) :
    (slow_polls d cb os m).2.length = os.length := by
  induction os generalizing m with
  | nil => rfl
  | cons o os ih =>
    obtain ⟨f, g⟩ := o
    rw [slow_polls_calls, List.length_cons, List.length_cons, ih]

theorem slow_polls_sd_mono (d : Decls) (cb : Main → Main) (hcb : KeepsFlags cb)
    (os : List (Nat × Nat)) (m : Main) : m.sd_ok ≤ (slow_polls d cb os m).1.sd_ok := by
  induction os generalizing m with
  | nil => exact le_refl _
  | cons o os ih =>
    obtain ⟨f, g⟩ := o
    rw [slow_polls_state]
    refine le_trans ?_ (ih _)
    rw [(slow_poll_flags d cb hcb f g m).1]
    split_ifs with h <;> omega

theorem slow_polls_retry (d : Decls) (cb : Main → Main) (hcb : KeepsFlags cb)
    (os : List (Nat × Nat)) (m : Main) (h0 : m.sd_ok = 0) (hf : ∀ o ∈ os, o.1 ≠ d.FR_OK) :
    (slow_polls d cb os m).1.sd_ok = 0 ∧
    ∀ l ∈ (slow_polls d cb os m).2, l.count Call.f_mount = 1 := by
  induction os generalizing m with
  | nil => exact ⟨h0, fun l hl => absurd hl (List.not_mem_nil l)⟩
  | cons o os ih =>
    obtain ⟨f, g⟩ := o
    have hfail : f ≠ d.FR_OK := hf (f, g) (List.mem_cons_self _ _)
    have h1 : (slow_poll d cb f g m).1.sd_ok = 0 := by
      rw [(slow_poll_flags d cb hcb f g m).1, if_pos h0, if_neg hfail]
    obtain ⟨i1, i2⟩ := ih (slow_poll d cb f g m).1 h1
      (fun o ho => hf o (List.mem_cons_of_mem _ ho))
    rw [slow_polls_state, slow_polls_calls]
    refine ⟨i1, ?_⟩
    intro l hl
    rcases List.mem_cons.mp hl with hl | hl
    · rw [hl, (slow_poll_count d cb hcb f g m).2.1, if_pos h0]
    · exact i2 l hl

/-! ## The main loop: properties -/

/-- C7, first slow-poll after boot: with `sd_ok = 0`, `gbcam_ok = 0`, `sd_ok_prev = 2`,
`gbcam_ok_prev = 2` and a callback that keeps the flags, whatever `f_mount` and
`gbcam_detect` return, the slow-poll calls `slot_func` exactly once and draws exactly the
storage icon and the camera icon, each once, in the variant of the flag after the probe;
the flags after the probe are those the mount and the probe dictate. -/
theorem first_slow_poll_fires (d : Decls) (cb : Main → Main) (hcb : KeepsFlags cb)
    (mount detect : Nat) (m : Main)
    (hm : m.sd_ok = 0 ∧ m.gbcam_ok = 0 ∧ m.sd_ok_prev = 2 ∧ m.gbcam_ok_prev = 2) :
    (slow_poll d cb mount detect m).2.count Call.slot_func = 1 ∧
    icons_drawn (slow_poll d cb mount detect m).2 =
      [Call.lcd_paint 218 0
          (if (slow_poll d cb mount detect m).1.sd_ok ≠ 0 then Icon.icon_sdok
            else Icon.icon_sdnok) 1,
        Call.lcd_paint 184 0
          (if (slow_poll d cb mount detect m).1.gbcam_ok ≠ 0 then Icon.icon_camok
            else Icon.icon_camnok) 1] ∧
    (slow_poll d cb mount detect m).1.sd_ok = (if mount = d.FR_OK then 1 else 0) ∧
    (slow_poll d cb mount detect m).1.gbcam_ok = (if detect = 0 then 1 else 0) := by
  obtain ⟨h1, h2, h3, h4⟩ := hm
  obtain ⟨f1, f2, -, -⟩ := slow_poll_flags d cb hcb mount detect m
  rw [if_pos h1] at f1
  rw [if_pos h2] at f2
  have ho := slow_poll_observed d cb hcb mount detect m
  rw [f1, f2, h3, h4] at ho
  have hc : (slow_poll d cb mount detect m).2.count Call.slot_func =
      (observed (slow_poll d cb mount detect m).2).1 := rfl
  have hi : icons_drawn (slow_poll d cb mount detect m).2 =
      (observed (slow_poll d cb mount detect m).2).2 := rfl
  rw [hc, hi, ho, f1, f2]
  refine ⟨?_, ?_, rfl, rfl⟩
  · by_cases hmo : mount = d.FR_OK <;> by_cases hde : detect = 0 <;> simp [hmo, hde]
  · by_cases hmo : mount = d.FR_OK <;> by_cases hde : detect = 0 <;> simp [hmo, hde]

/-- Witness of C7: boot, the callback `noop`, the mount failing and the cartridge present. -/
theorem first_slow_poll_fires_witness :
    (slow_poll decls6 noop 3 0 Main.boot).2.count Call.slot_func = 1 :=
  (first_slow_poll_fires decls6 noop (fun _ => ⟨rfl, rfl, rfl, rfl⟩) 3 0 Main.boot
    ⟨rfl, rfl, rfl, rfl⟩).1

/-- C8, as stated, fails at the first slow-poll: from boot, with the mount failing twice and
then succeeding and no cartridge, the callback is called and the storage icon drawn at the
first slow-poll as well as at the third, not at the third alone. -/
theorem storage_scenario_first_poll_fires :
    (slow_polls decls6 noop [(1, 1), (1, 1), (0, 1)] Main.boot).2.map
        (fun l => (l.count Call.slot_func, l.countP is_sd_icon)) = [(1, 1), (0, 0), (1, 1)] ∧
    (slow_polls decls6 noop [(1, 1), (1, 1), (0, 1)] Main.boot).2.map
        (fun l => (l.count Call.slot_func, l.countP is_sd_icon)) ≠ [(0, 0), (0, 0), (1, 1)] := by
  decide

/-- C8, amended: from the boot flags, with the mount failing at slow-polls 1 and 2 and
succeeding at slow-poll 3, the probe returning the same `det` throughout and a callback that
keeps the flags: slow-poll 1, being the first after boot, calls the callback once and draws
both icons (the storage icon as `icon_sdnok`); slow-poll 2 calls nothing and draws nothing;
slow-poll 3 calls the callback exactly once and draws exactly the storage icon, as
`icon_sdok`; every later slow-poll calls nothing and draws nothing. -/
theorem storage_appears_at_third_poll (d : Decls) (cb : Main → Main) (hcb : KeepsFlags cb)
    (f1 f2 det : Nat) (hf1 : f1 ≠ d.FR_OK) (hf2 : f2 ≠ d.FR_OK) (later : List Nat) (m : Main)
    (hm : m.sd_ok = 0 ∧ m.gbcam_ok = 0 ∧ m.sd_ok_prev = 2 ∧ m.gbcam_ok_prev = 2) :
    (slow_polls d cb ([(f1, det), (f2, det), (d.FR_OK, det)] ++ later.map (fun f => (f, det)))
        m).2.map observed =
      [(1, [Call.lcd_paint 218 0 Icon.icon_sdnok 1,
            Call.lcd_paint 184 0 (if det = 0 then Icon.icon_camok else Icon.icon_camnok) 1]),
        (0, []),
        (1, [Call.lcd_paint 218 0 Icon.icon_sdok 1])] ++ later.map (fun _ => (0, [])) := by
  obtain ⟨h1, h2, h3, h4⟩ := hm
  -- slow-poll 1
  obtain ⟨a1, a2, a3, a4⟩ := slow_poll_flags d cb hcb f1 det m
  rw [if_pos h1, if_neg hf1] at a1
  rw [if_pos h2] at a2
  rw [a1] at a3
  have o1 := slow_poll_observed d cb hcb f1 det m
  rw [a1, a2, h3, h4] at o1
  -- slow-poll 2
  obtain ⟨b1, b2, b3, b4⟩ := slow_poll_flags d cb hcb f2 det (slow_poll d cb f1 det m).1
  rw [if_pos a1, if_neg hf2] at b1
  have b2' : (slow_poll d cb f2 det (slow_poll d cb f1 det m).1).1.gbcam_ok =
      (slow_poll d cb f1 det m).1.gbcam_ok := by
    rw [b2, a2]
    by_cases hde : det = 0 <;> simp [hde]
  rw [b1] at b3
  have o2 := slow_poll_observed d cb hcb f2 det (slow_poll d cb f1 det m).1
  rw [b1, b2', a3, a4] at o2
  -- slow-poll 3
  obtain ⟨c1, c2, c3, c4⟩ := slow_poll_flags d cb hcb d.FR_OK det
    (slow_poll d cb f2 det (slow_poll d cb f1 det m).1).1
  rw [if_pos b1, if_pos rfl] at c1
  have c2' : (slow_poll d cb d.FR_OK det
      (slow_poll d cb f2 det (slow_poll d cb f1 det m).1).1).1.gbcam_ok =
      (slow_poll d cb f2 det (slow_poll d cb f1 det m).1).1.gbcam_ok := by
    rw [c2, b2', a2]
    by_cases hde : det = 0 <;> simp [hde]
  have o3 := slow_poll_observed d cb hcb d.FR_OK det
    (slow_poll d cb f2 det (slow_poll d cb f1 det m).1).1
  rw [c1, c2', b3, b4] at o3
  -- the later slow-polls
  have hq := slow_polls_quiet d cb hcb det later
    (slow_poll d cb d.FR_OK det (slow_poll d cb f2 det (slow_poll d cb f1 det m).1).1).1
    (by rw [c1]; decide) c3 c4
    (by
      rw [c2', b2', a2]
      by_cases hde : det = 0 <;> simp [hde])
  rw [List.cons_append, List.cons_append, List.cons_append, List.nil_append, slow_polls_calls,
    slow_polls_calls, slow_polls_calls, List.map_cons, List.map_cons, List.map_cons, hq, o1, o2,
    o3]
  by_cases hde : det = 0 <;> simp [hde]

/-- Witness of the amended C8: boot, the callback `noop`, no cartridge, two later slow-polls. -/
theorem storage_appears_at_third_poll_witness :
    (slow_polls decls6 noop
        ([(1, 1), (3, 1), (decls6.FR_OK, 1)] ++ [7, 0].map (fun f => (f, 1)))
        Main.boot).2.map observed =
      [(1, [Call.lcd_paint 218 0 Icon.icon_sdnok 1,
            Call.lcd_paint 184 0 (if 1 = 0 then Icon.icon_camok else Icon.icon_camnok) 1]),
        (0, []),
        (1, [Call.lcd_paint 218 0 Icon.icon_sdok 1])] ++ [7, 0].map (fun _ => (0, [])) :=
  storage_appears_at_third_poll decls6 noop (fun _ => ⟨rfl, rfl, rfl, rfl⟩) 1 3 1 (by decide)
    (by decide) [7, 0] Main.boot ⟨rfl, rfl, rfl, rfl⟩

/-- C9, as stated, fails: from boot with the probe reporting present, absent, present
(`gbcam_detect` returning 0, 1, 0), `gbcam_ok` is 1 after the second slow-poll, not 0; the
callback runs at the first slow-poll only and the camera icon is drawn once, as
`icon_camok`, never as `icon_camnok`. -/
theorem cartridge_flap_not_seen :
    (slow_polls decls6 noop [(1, 0), (1, 1)] Main.boot).1.gbcam_ok = 1 ∧
    (slow_polls decls6 noop [(1, 0), (1, 1), (1, 0)] Main.boot).2.map
        (fun l => (l.count Call.slot_func, l.filter is_cam_icon)) =
      [(1, [Call.lcd_paint 184 0 Icon.icon_camok 1]), (0, []), (0, [])] ∧
    (slow_polls decls6 noop [(1, 0), (1, 1), (1, 0)] Main.boot).2.map
        (fun l => (l.count Call.slot_func, l.filter is_cam_icon)) ≠
      [(1, [Call.lcd_paint 184 0 Icon.icon_camok 1]),
        (1, [Call.lcd_paint 184 0 Icon.icon_camnok 1]),
        (1, [Call.lcd_paint 184 0 Icon.icon_camok 1])] := by
  decide

/-- C9, amended: the cartridge flag is latched like the storage flag, because the probe is
only made while `gbcam_ok` is zero.  If the probe reports present at the first of three
consecutive slow-polls, then whatever it would report at the next two (`d2`, `d3`),
`gbcam_ok` is nonzero after the first slow-poll (1 if it was 0 before) and keeps that value;
`gbcam_detect` is not called at the second and third slow-polls and no camera icon is drawn
there; the callback runs there only if `sd_ok` changed.  At the first slow-poll, entered with
`gbcam_ok = 0` and `gbcam_ok_prev ≠ 1`, the callback runs once and the camera icon is drawn
as `icon_camok`. -/
theorem cartridge_presence_latched (d : Decls) (cb : Main → Main) (hcb : KeepsFlags cb)
    (f1 f2 f3 d2 d3 : Nat) (m : Main) :
    (slow_poll d cb f1 0 m).1.gbcam_ok ≠ 0 ∧
    (m.gbcam_ok = 0 → (slow_poll d cb f1 0 m).1.gbcam_ok = 1) ∧
    (slow_poll d cb f2 d2 (slow_poll d cb f1 0 m).1).1.gbcam_ok =
      (slow_poll d cb f1 0 m).1.gbcam_ok ∧
    (slow_poll d cb f3 d3 (slow_poll d cb f2 d2 (slow_poll d cb f1 0 m).1).1).1.gbcam_ok =
      (slow_poll d cb f1 0 m).1.gbcam_ok ∧
    (slow_poll d cb f2 d2 (slow_poll d cb f1 0 m).1).2.count Call.gbcam_detect = 0 ∧
    (slow_poll d cb f3 d3 (slow_poll d cb f2 d2 (slow_poll d cb f1 0 m).1).1).2.count
      Call.gbcam_detect = 0 ∧
    (slow_poll d cb f2 d2 (slow_poll d cb f1 0 m).1).2.filter is_cam_icon = [] ∧
    (slow_poll d cb f3 d3 (slow_poll d cb f2 d2 (slow_poll d cb f1 0 m).1).1).2.filter
      is_cam_icon = [] ∧
    (slow_poll d cb f2 d2 (slow_poll d cb f1 0 m).1).2.count Call.slot_func =
      (if (slow_poll d cb f2 d2 (slow_poll d cb f1 0 m).1).1.sd_ok ≠
        (slow_poll d cb f1 0 m).1.sd_ok then 1 else 0) ∧
    (slow_poll d cb f3 d3 (slow_poll d cb f2 d2 (slow_poll d cb f1 0 m).1).1).2.count
        Call.slot_func =
      (if (slow_poll d cb f3 d3 (slow_poll d cb f2 d2 (slow_poll d cb f1 0 m).1).1).1.sd_ok ≠
        (slow_poll d cb f2 d2 (slow_poll d cb f1 0 m).1).1.sd_ok then 1 else 0) ∧
    (m.gbcam_ok = 0 → m.gbcam_ok_prev ≠ 1 →
      (slow_poll d cb f1 0 m).2.count Call.slot_func = 1 ∧
      (slow_poll d cb f1 0 m).2.filter is_cam_icon =
        [Call.lcd_paint 184 0 Icon.icon_camok 1]) := by
  obtain ⟨-, a2, a3, a4⟩ := slow_poll_flags d cb hcb f1 0 m
  have ha : (slow_poll d cb f1 0 m).1.gbcam_ok ≠ 0 := by
    by_cases h : m.gbcam_ok = 0
    · rw [a2, if_pos h, if_pos rfl]
      decide
    · rw [a2, if_neg h]
      exact h
  obtain ⟨-, b2, b3, b4⟩ := slow_poll_flags d cb hcb f2 d2 (slow_poll d cb f1 0 m).1
  rw [if_neg ha] at b2
  have hb : (slow_poll d cb f2 d2 (slow_poll d cb f1 0 m).1).1.gbcam_ok ≠ 0 := by
    rw [b2]; exact ha
  obtain ⟨-, c2, -, -⟩ := slow_poll_flags d cb hcb f3 d3
    (slow_poll d cb f2 d2 (slow_poll d cb f1 0 m).1).1
  rw [if_neg hb] at c2
  refine ⟨ha, ?_, b2, c2.trans b2, ?_, ?_, ?_, ?_, ?_, ?_, ?_⟩
  · intro h0
    rw [a2, if_pos h0, if_pos rfl]
  · rw [(slow_poll_count d cb hcb _ _ _).2.2, if_neg ha]
  · rw [(slow_poll_count d cb hcb _ _ _).2.2, if_neg hb]
  · rw [slow_poll_cam_icons d cb hcb, b2, a4, if_neg (fun h => h rfl)]
  · rw [slow_poll_cam_icons d cb hcb, c2, b4, if_neg (fun h => h rfl)]
  · rw [(slow_poll_count d cb hcb _ _ _).1, b2, a3, a4]
    simp
  · rw [(slow_poll_count d cb hcb _ _ _).1, c2, b3, b4]
    simp
  · intro h0 hp
    have h1 : (slow_poll d cb f1 0 m).1.gbcam_ok = 1 := by rw [a2, if_pos h0, if_pos rfl]
    rw [(slow_poll_count d cb hcb _ _ _).1, slow_poll_cam_icons d cb hcb, h1]
    have hp' : (1 : Nat) ≠ m.gbcam_ok_prev := fun h => hp h.symm
    simp [hp']

/-- Witness of the amended C9: boot, the callback `noop`, the probe reporting present, absent,
present. -/
theorem cartridge_presence_latched_witness :
    (slow_poll decls6 noop 1 1 (slow_poll decls6 noop 1 0 Main.boot).1).1.gbcam_ok =
      (slow_poll decls6 noop 1 0 Main.boot).1.gbcam_ok :=
  (cartridge_presence_latched decls6 noop (fun _ => ⟨rfl, rfl, rfl, rfl⟩) 1 1 1 1 0
    Main.boot).2.2.1

/-- C10, the storage mount is latched and retried: in a slow-poll entered with `sd_ok = 1`
`f_mount` is not called and `sd_ok = 1` on exit; in one entered with `sd_ok = 0` `f_mount` is
called exactly once and `sd_ok` on exit is 1 exactly when it returned `FR_OK` (and is 0
otherwise).  Hence over any sequence `os` of slow-polls `sd_ok` never decreases, and as long
as every mount fails each of the slow-polls calls `f_mount` once and `sd_ok` stays 0. -/
theorem mount_latched_and_retried (d : Decls) (cb : Main → Main) (hcb : KeepsFlags cb)
    (mount detect : Nat) (m : Main) (os : List (Nat × Nat)) :
    (m.sd_ok = 1 → (slow_poll d cb mount detect m).2.count Call.f_mount = 0 ∧
      (slow_poll d cb mount detect m).1.sd_ok = 1) ∧
    (m.sd_ok = 0 → (slow_poll d cb mount detect m).2.count Call.f_mount = 1 ∧
      ((slow_poll d cb mount detect m).1.sd_ok = 1 ↔ mount = d.FR_OK) ∧
      (mount ≠ d.FR_OK → (slow_poll d cb mount detect m).1.sd_ok = 0)) ∧
    m.sd_ok ≤ (slow_polls d cb os m).1.sd_ok ∧
    (slow_polls d cb os m).2.length = os.length ∧
    (m.sd_ok = 0 → (∀ o ∈ os, o.1 ≠ d.FR_OK) →
      (slow_polls d cb os m).1.sd_ok = 0 ∧
      ∀ l ∈ (slow_polls d cb os m).2, l.count Call.f_mount = 1) := by
  obtain ⟨f1, -, -, -⟩ := slow_poll_flags d cb hcb mount detect m
  obtain ⟨-, c2, -⟩ := slow_poll_count d cb hcb mount detect m
  refine ⟨?_, ?_, slow_polls_sd_mono d cb hcb os m, slow_polls_length d cb os m,
    slow_polls_retry d cb hcb os m⟩
  · intro h
    have hne : m.sd_ok ≠ 0 := by rw [h]; decide
    rw [c2, f1, if_neg hne, if_neg hne]
    exact ⟨rfl, h⟩
  · intro h
    rw [c2, f1, if_pos h, if_pos h]
    refine ⟨rfl, ?_, ?_⟩
    · by_cases hm : mount = d.FR_OK <;> simp [hm]
    · intro hm
      rw [if_neg hm]

/-- Witness of C10: boot, the callback `noop`, three slow-polls with a failing mount. -/
theorem mount_latched_and_retried_witness :
    (slow_polls decls6 noop [(1, 1), (3, 0), (13, 1)] Main.boot).1.sd_ok = 0 ∧
    ∀ l ∈ (slow_polls decls6 noop [(1, 1), (3, 0), (13, 1)] Main.boot).2,
      l.count Call.f_mount = 1 :=
  (mount_latched_and_retried decls6 noop (fun _ => ⟨rfl, rfl, rfl, rfl⟩) 1 1 Main.boot
    [(1, 1), (3, 0), (13, 1)]).2.2.2.2 rfl (by decide)

/-! ## The tick service: one tick and many -/

theorem SysTick_systick (r : Nat) (t : Tick) :
    (SysTick_Handler r t).systick = if t.systick < 255 then t.systick + 1 else t.systick := by
  simp only [SysTick_Handler, apply_ite Tick.systick, ite_self]

theorem SysTick_check_timer (r : Nat) (t : Tick) :
    (SysTick_Handler r t).check_timer = t.check_timer - 1 := by
  simp only [SysTick_Handler, apply_ite Tick.check_timer, ite_self]
  split_ifs <;> omega

theorem run_SysTick_succ (r n : Nat) (t : Tick) :
    run_SysTick r (n + 1) t = run_SysTick r n (SysTick_Handler r t) := by
  induction n with
  | zero => rfl
  | succ n ih =>
    show SysTick_Handler r (run_SysTick r (n + 1) t) = _
    rw [ih]
    rfl

theorem run_SysTick_check_timer (r n : Nat) (t : Tick) :
    (run_SysTick r n t).check_timer = t.check_timer - n := by
  induction n with
  | zero => rfl
  | succ n ih =>
    show (SysTick_Handler r (run_SysTick r n t)).check_timer = _
    rw [SysTick_check_timer, ih]
    omega

theorem run_SysTick_systick (r n : Nat) (t : Tick) (h : t.systick ≤ 255) :
    (run_SysTick r n t).systick = min (t.systick + n) 255 := by
  induction n with
  | zero => simp [run_SysTick, h]
  | succ n ih =>
    show (SysTick_Handler r (run_SysTick r n t)).systick = _
    rw [SysTick_systick, ih]
    split_ifs <;> omega

theorem run_tick_events_bounds (r : Nat) (es : List TickEvent) (t : Tick)
    (h1 : t.systick ≤ 255) (h2 : t.check_timer ≤ check_timer_reload) :
    (run_tick_events r es t).systick ≤ 255 ∧
    (run_tick_events r es t).check_timer ≤ check_timer_reload := by
  induction es generalizing t with
  | nil => exact ⟨h1, h2⟩
  | cons e es ih =>
    cases e with
    | tick =>
      apply ih
      · rw [SysTick_systick]
        split_ifs <;> omega
      · rw [SysTick_check_timer]
        omega
    | wait_reset => exact ih _ (Nat.zero_le _) h2
    | reload => exact ih _ h1 (le_refl _)

/-- The wait ends at the tick that brings `systick` to `duration`. -/
theorem wait_loop_returns (r d : Nat) (hd : d ≤ 255) (fuel : Nat) (t : Tick)
    (h1 : t.systick ≤ d) (h2 : d - t.systick ≤ fuel) :
    systick_wait_loop r d fuel t = some (run_SysTick r (d - t.systick) t) := by
  induction fuel generalizing t with
  | zero =>
    have he : d - t.systick = 0 := by omega
    rw [he]
    simp only [systick_wait_loop, run_SysTick]
    rw [if_neg (by omega)]
  | succ fuel ih =>
    simp only [systick_wait_loop]
    by_cases hlt : t.systick < d
    · have hs : (SysTick_Handler r t).systick = t.systick + 1 := by
        rw [SysTick_systick, if_pos (by omega)]
      rw [if_pos hlt, ih _ (by omega) (by omega), hs,
        show d - t.systick = (d - (t.systick + 1)) + 1 by omega, run_SysTick_succ]
    · have he : d - t.systick = 0 := by omega
      rw [if_neg hlt, he]
      rfl

/-- The wait does not end before `systick` can have reached `duration`. -/
theorem wait_loop_early (r d fuel : Nat) (t : Tick) (h : t.systick + fuel < d) :
    systick_wait_loop r d fuel t = none := by
  induction fuel generalizing t with
  | zero =>
    simp only [systick_wait_loop]
    rw [if_pos (by omega)]
  | succ fuel ih =>
    simp only [systick_wait_loop]
    rw [if_pos (by omega)]
    apply ih
    rw [SysTick_systick]
    split_ifs <;> omega

/-- A duration above the ceiling of `systick` is never reached. -/
theorem wait_loop_hangs (r d : Nat) (hd : 255 < d) (fuel : Nat) (t : Tick)
    (h : t.systick ≤ 255) : systick_wait_loop r d fuel t = none := by
  induction fuel generalizing t with
  | zero =>
    simp only [systick_wait_loop]
    rw [if_pos (by omega)]
  | succ fuel ih =>
    simp only [systick_wait_loop]
    rw [if_pos (by omega)]
    apply ih
    rw [SysTick_systick]
    split_ifs <;> omega

theorem slow_poll_noop_check_timer (d : Decls) (mount detect : Nat) (m : Main) :
    (slow_poll d noop mount detect m).1.check_timer = check_timer_reload := by
  have h1 : ∀ m0, (try_mount d mount m0).1.check_timer = m0.check_timer := by
    intro m0
    unfold try_mount
    simp only []
    split_ifs <;> rfl
  have h2 : ∀ m0, (probe_gbcam detect m0).1.check_timer = m0.check_timer := by
    intro m0
    unfold probe_gbcam
    split_ifs <;> rfl
  have h3 : ∀ m0, (notify noop m0).1.check_timer = m0.check_timer := by
    intro m0
    unfold notify noop
    split_ifs <;> rfl
  show (notify noop _).1.check_timer = _
  rw [h3, h2, h1]
  rfl

/-! ## The tick service: properties -/

/-- C11, what the code does: a slow-poll (with the boot callback `noop`) reloads
`check_timer` with 100, and from there `SysTick_Handler` brings it to `100 - n` after `n`
ticks, so to zero after exactly 100 ticks and not before.  A tick is
`SysTick_LOAD + 1 = 720000` cycles, so 100 ticks are the 72000000 cycles of one second at
72 MHz, not the 200 ticks of two seconds. -/
theorem check_timer_period_is_100_ticks (d : Decls) (mount detect r n : Nat) (m : Main)
    (t : Tick) :
    (slow_poll d noop mount detect m).1.check_timer = 100 ∧
    (run_SysTick r n
      { t with check_timer := (slow_poll d noop mount detect m).1.check_timer }).check_timer =
        100 - n ∧
    ((run_SysTick r n
      { t with check_timer := (slow_poll d noop mount detect m).1.check_timer }).check_timer = 0
        ↔ 100 ≤ n) ∧
    SysTick_LOAD + 1 = 720000 ∧
    (SysTick_LOAD + 1) * 100 = 72000000 ∧
    (SysTick_LOAD + 1) * 100 ≠ 2 * 72000000 ∧
    check_timer_reload ≠ 200 := by
  have h := slow_poll_noop_check_timer d mount detect m
  have hr : check_timer_reload = 100 := rfl
  refine ⟨h.trans hr, ?_, ?_, by decide, by decide, by decide, by decide⟩
  · rw [run_SysTick_check_timer, h, hr]
  · rw [run_SysTick_check_timer, h, hr]
    show 100 - n = 0 ↔ 100 ≤ n
    omega

/-- C12, as stated, fails for durations above 255: after the reset at boot, `systick_wait(256)`
is still polling however many ticks arrive. -/
theorem systick_wait_256_never_returns :
    ¬ ∃ fuel, (systick_wait 65536 256 fuel Tick.boot).isSome = true := by
  rintro ⟨fuel, h⟩
  have := wait_loop_hangs 65536 256 (by decide) fuel { Tick.boot with systick := 0 }
    (by decide)
  unfold systick_wait at h
  rw [this] at h
  exact absurd h (by decide)

/-- C12, amended: `systick_wait(d)` resets `systick` to zero; for `d ≤ 255` it returns at the
`d`-th tick interrupt and not before, with `systick = d` on return, the other tick variables
being what `d` invocations of `SysTick_Handler` make of them; for `d > 255` it does not
return, because `systick` stops at 255. -/
theorem systick_wait_contract (r d fuel : Nat) (t : Tick) :
    (d ≤ 255 → d ≤ fuel →
      systick_wait r d fuel t = some (run_SysTick r d { t with systick := 0 }) ∧
      (run_SysTick r d { t with systick := 0 }).systick = d) ∧
    (d ≤ 255 → fuel < d → systick_wait r d fuel t = none) ∧
    (255 < d → systick_wait r d fuel t = none) := by
  refine ⟨?_, ?_, ?_⟩
  · intro hd hf
    refine ⟨?_, ?_⟩
    · exact wait_loop_returns r d hd fuel { t with systick := 0 } (Nat.zero_le _) (by simpa using hf)
    · rw [run_SysTick_systick r d _ (Nat.zero_le _)]
      show min (0 + d) 255 = d
      omega
  · intro _ hf
    exact wait_loop_early r d fuel { t with systick := 0 } (by simpa using hf)
  · intro hd
    exact wait_loop_hangs r d hd fuel { t with systick := 0 } (Nat.zero_le _)

/-- Witness of the amended C12: the call `systick_wait(10)` of `main`. -/
theorem systick_wait_contract_witness :
    systick_wait 65536 10 10 Tick.boot =
      some (run_SysTick 65536 10 { Tick.boot with systick := 0 }) ∧
    (run_SysTick 65536 10 { Tick.boot with systick := 0 }).systick = 10 :=
  (systick_wait_contract 65536 10 10 Tick.boot).1 (by decide) (by decide)

/-- C13, tick handler arithmetic: one invocation of `SysTick_Handler` sets `systick` to
`min (systick + 1) 255` when `systick ≤ 255`, sets `check_timer` to `check_timer - 1` when it
is positive and leaves it 0 when it is 0, so `check_timer` never grows by a tick.  Hence from
boot, whatever the order of ticks, resets of `systick` by `systick_wait` and reloads of
`check_timer` by the main loop, `systick ≤ 255` and `check_timer ≤ 100`. -/
theorem SysTick_Handler_saturates (r : Nat) (t : Tick) (es : List TickEvent) :
    (t.systick ≤ 255 → (SysTick_Handler r t).systick = min (t.systick + 1) 255) ∧
    (0 < t.check_timer → (SysTick_Handler r t).check_timer = t.check_timer - 1 ∧
      (SysTick_Handler r t).check_timer < t.check_timer) ∧
    (t.check_timer = 0 → (SysTick_Handler r t).check_timer = 0) ∧
    (SysTick_Handler r t).check_timer ≤ t.check_timer ∧
    (run_tick_events r es Tick.boot).systick ≤ 255 ∧
    (run_tick_events r es Tick.boot).check_timer ≤ check_timer_reload := by
  refine ⟨?_, ?_, ?_, ?_, (run_tick_events_bounds r es Tick.boot (by decide) (by decide)).1,
    (run_tick_events_bounds r es Tick.boot (by decide) (by decide)).2⟩
  · intro h
    rw [SysTick_systick]
    split_ifs <;> omega
  · intro h
    rw [SysTick_check_timer]
    omega
  · intro h
    rw [SysTick_check_timer, h]
  · rw [SysTick_check_timer]
    omega

/-- Witness of C13: a tick at the ceiling of `systick`. -/
theorem SysTick_Handler_saturates_witness :
    (SysTick_Handler 65536 { systick := 255, check_timer := 1, rec_timer := 7 }).systick =
      min (255 + 1) 255 :=
  (SysTick_Handler_saturates 65536 { systick := 255, check_timer := 1, rec_timer := 7 }
    [TickEvent.tick, TickEvent.reload, TickEvent.wait_reset]).1 (by decide)

/-! ## The playback timer and the ADC side by side -/

theorem TIMER_ptr (d : Decls) (s : Audio) :
    (TIMER32_0_IRQHandler d s).audio_fifo_ptr =
      if s.audio_fifo_ptr = 511 then 0 else (s.audio_fifo_ptr + 1) % d.ptr_mod := by
  simp only [TIMER32_0_IRQHandler, apply_ite Audio.audio_fifo_ptr, ite_self]

theorem TIMER_frame_tick (d : Decls) (s : Audio) :
    (TIMER32_0_IRQHandler d s).frame_tick = if s.audio_fifo_ptr = 511 then 1 else s.frame_tick := by
  simp only [TIMER32_0_IRQHandler, apply_ite Audio.frame_tick, ite_self]

theorem TIMER_put (d : Decls) (s : Audio) :
    (TIMER32_0_IRQHandler d s).audio_fifo_put = s.audio_fifo_put := by
  simp only [TIMER32_0_IRQHandler, apply_ite Audio.audio_fifo_put, ite_self]

/-- The offset after one interrupt of either source, below the wrap. -/
theorem next_ptr_eq (d : Decls) (hd : d.WellFormed) (p : Nat) (hp : p ≤ 511) :
    (if p = 511 then 0 else (p + 1) % d.ptr_mod) = (p + 1) % 512 := by
  have := hd.2.1
  split_ifs with h
  · rw [h]
  · rw [Nat.mod_eq_of_lt (by omega), Nat.mod_eq_of_lt (by omega)]

theorem run_pacing_agree (d : Decls) (c : Audio → Audio)
    (hcp : ∀ s, (c s).audio_fifo_ptr = s.audio_fifo_ptr)
    (hcf : ∀ s s', s.frame_tick = s'.frame_tick → (c s).frame_tick = (c s').frame_tick)
    (evs : List PaceEvent) (s s' : Audio) (hp : s.audio_fifo_ptr = s'.audio_fifo_ptr)
    (hf : s.frame_tick = s'.frame_tick) :
    (run_live d c evs s).audio_fifo_ptr = (run_playback d c evs s').audio_fifo_ptr ∧
    (run_live d c evs s).frame_tick = (run_playback d c evs s').frame_tick := by
  induction evs generalizing s s' with
  | nil => exact ⟨hp, hf⟩
  | cons e es ih =>
    cases e with
    | irq x =>
      apply ih
      · rw [ADC_ptr, TIMER_ptr, hp]
      · rw [ADC_frame_tick, TIMER_frame_tick, hp, hf]
    | consumer =>
      apply ih
      · rw [hcp, hcp, hp]
      · exact hcf s s' hf

theorem run_live_ptr (d : Decls) (hd : d.WellFormed) (c : Audio → Audio)
    (hcp : ∀ s, (c s).audio_fifo_ptr = s.audio_fifo_ptr) (evs : List PaceEvent) (s : Audio)
    (hp : s.audio_fifo_ptr ≤ 511) :
    (run_live d c evs s).audio_fifo_ptr = (s.audio_fifo_ptr + irq_count evs) % 512 := by
  induction evs generalizing s with
  | nil =>
    show s.audio_fifo_ptr = (s.audio_fifo_ptr + 0) % 512
    omega
  | cons e es ih =>
    cases e with
    | irq x =>
      have hn : (ADC_IRQHandler d x s).audio_fifo_ptr = (s.audio_fifo_ptr + 1) % 512 := by
        rw [ADC_ptr, next_ptr_eq d hd _ hp]
      show (run_live d c es (ADC_IRQHandler d x s)).audio_fifo_ptr = _
      rw [ih _ (by rw [hn]; omega), hn]
      show _ = (s.audio_fifo_ptr + (irq_count es + 1)) % 512
      omega
    | consumer =>
      show (run_live d c es (c s)).audio_fifo_ptr = _
      rw [ih _ (by rw [hcp]; exact hp), hcp]
      rfl

theorem run_irqs_in_bounds (d : Decls) (evs : List IrqEvent) (s : Audio) (hs : InBounds d s) :
    InBounds d (run_irqs d evs s) := by
  induction evs generalizing s with
  | nil => exact hs
  | cons e es ih =>
    obtain ⟨h1, h2⟩ := hs
    cases e with
    | adc x =>
      apply ih
      refine ⟨?_, ?_⟩
      · rw [ADC_put]
        unfold next_put
        split_ifs
        · omega
        · have := Nat.mod_le (s.audio_fifo_put + 1) d.put_mod
          omega
        · exact h1
      · rw [ADC_ptr]
        split_ifs
        · omega
        · have := Nat.mod_le (s.audio_fifo_ptr + 1) d.ptr_mod
          omega
    | timer =>
      apply ih
      refine ⟨?_, ?_⟩
      · rw [TIMER_put]
        exact h1
      · rw [TIMER_ptr]
        split_ifs
        · omega
        · have := Nat.mod_le (s.audio_fifo_ptr + 1) d.ptr_mod
          omega

/-! ## Frame pacing: properties -/

/-- C16, live and playback pacing agree: from states that agree on `audio_fifo_ptr` and
`frame_tick`, `ADC_IRQHandler` (with any sample) and `TIMER32_0_IRQHandler` give the same next
`audio_fifo_ptr` and the same next `frame_tick`; either sets `frame_tick` exactly when it is
entered with `audio_fifo_ptr = 511`.  Hence over any sequence of interrupts and consumer
actions (a consumer that leaves `audio_fifo_ptr` alone and treats `frame_tick` the same way in
both modes) the two modes agree on both variables after every event, and from an offset
`p ≤ 511` the offset seen by the next interrupt is `(p + number of interrupts so far) % 512`
in both, so both raise `frame_tick` at the same interrupts, one in every 512. -/
theorem pacing_sources_agree (d : Decls) (c : Audio → Audio)
    (hcp : ∀ s, (c s).audio_fifo_ptr = s.audio_fifo_ptr)
    (hcf : ∀ s s', s.frame_tick = s'.frame_tick → (c s).frame_tick = (c s').frame_tick)
    (s s' : Audio) (x : Nat) (hp : s.audio_fifo_ptr = s'.audio_fifo_ptr)
    (hf : s.frame_tick = s'.frame_tick) (evs : List PaceEvent) :
    (ADC_IRQHandler d x s).audio_fifo_ptr = (TIMER32_0_IRQHandler d s').audio_fifo_ptr ∧
    (ADC_IRQHandler d x s).frame_tick = (TIMER32_0_IRQHandler d s').frame_tick ∧
    (ADC_IRQHandler d x s).frame_tick = (if s.audio_fifo_ptr = 511 then 1 else s.frame_tick) ∧
    (TIMER32_0_IRQHandler d s').frame_tick =
      (if s'.audio_fifo_ptr = 511 then 1 else s'.frame_tick) ∧
    (run_live d c evs s).audio_fifo_ptr = (run_playback d c evs s').audio_fifo_ptr ∧
    (run_live d c evs s).frame_tick = (run_playback d c evs s').frame_tick ∧
    (d.WellFormed → s.audio_fifo_ptr ≤ 511 →
      (run_live d c evs s).audio_fifo_ptr = (s.audio_fifo_ptr + irq_count evs) % 512 ∧
      (run_playback d c evs s').audio_fifo_ptr = (s.audio_fifo_ptr + irq_count evs) % 512) := by
  obtain ⟨a1, a2⟩ := run_pacing_agree d c hcp hcf evs s s' hp hf
  refine ⟨?_, ?_, ADC_frame_tick d x s, TIMER_frame_tick d s', a1, a2, ?_⟩
  · rw [ADC_ptr, TIMER_ptr, hp]
  · rw [ADC_frame_tick, TIMER_frame_tick, hp, hf]
  · intro hd hle
    have h := run_live_ptr d hd c hcp evs s hle
    exact ⟨h, a1 ▸ h⟩

/-- Witness of C16: capture from boot against playback from a state with other buffers and
counters, the consumer acknowledging the frame edge. -/
theorem pacing_sources_agree_witness :
    (run_live decls6 clear_tick
        [PaceEvent.irq 0x1200, PaceEvent.consumer, PaceEvent.irq 0x3400] Audio.boot).frame_tick =
      (run_playback decls6 clear_tick
        [PaceEvent.irq 0x1200, PaceEvent.consumer, PaceEvent.irq 0x3400]
        { Audio.boot with audio_fifo_ready := 4, skipped := 9 }).frame_tick :=
  (pacing_sources_agree decls6 clear_tick (fun _ => rfl) (fun _ _ _ => rfl) Audio.boot
    { Audio.boot with audio_fifo_ready := 4, skipped := 9 } 0x8000 rfl rfl
    [PaceEvent.irq 0x1200, PaceEvent.consumer, PaceEvent.irq 0x3400]).2.2.2.2.2.1

/-- C17, frame of the playback pacing handler: one invocation of `TIMER32_0_IRQHandler`
changes `audio_fifo_ptr` and `frame_tick` and acknowledges the interrupt in the two hardware
registers; every audio buffer, `audio_fifo_put`, `audio_fifo_ready`, `skipped` and `audio_max`
are unchanged. -/
theorem TIMER32_0_IRQHandler_frame (d : Decls) (s : Audio) :
    TIMER32_0_IRQHandler d s =
      { s with
        audio_fifo_ptr := if s.audio_fifo_ptr = 511 then 0 else (s.audio_fifo_ptr + 1) % d.ptr_mod
        frame_tick := if s.audio_fifo_ptr = 511 then 1 else s.frame_tick
        TMR32B0_IR := 1
        NVIC_ICPR1 := 1 <<< 11 } ∧
    (TIMER32_0_IRQHandler d s).audio_fifo = s.audio_fifo ∧
    (TIMER32_0_IRQHandler d s).audio_fifo_put = s.audio_fifo_put ∧
    (TIMER32_0_IRQHandler d s).audio_fifo_ready = s.audio_fifo_ready ∧
    (TIMER32_0_IRQHandler d s).skipped = s.skipped ∧
    (TIMER32_0_IRQHandler d s).audio_max = s.audio_max := by
  by_cases h : s.audio_fifo_ptr = 511
  · simp only [TIMER32_0_IRQHandler, h, if_true, and_self]
  · simp only [TIMER32_0_IRQHandler, h, if_false, and_self]

/-- C19, the buffer write stays in bounds: `audio_fifo_put < MAX_AUDIO_BUFFERS` and
`audio_fifo_ptr ≤ 511` hold at boot and are kept by `ADC_IRQHandler` and by
`TIMER32_0_IRQHandler`, hence hold after any interleaving `evs` of the two from boot.  In
such a state `t` the store of `ADC_IRQHandler` addresses a cell of the array, writes a value
in `0..255` there and leaves every other cell as it was. -/
theorem audio_fifo_store_in_bounds (d : Decls) (hd : d.WellFormed) (s : Audio)
    (hs : InBounds d s) (x : Nat) (evs : List IrqEvent) :
    InBounds d Audio.boot ∧
    InBounds d (ADC_IRQHandler d x s) ∧
    InBounds d (TIMER32_0_IRQHandler d s) ∧
    InBounds d (run_irqs d evs Audio.boot) ∧
    (run_irqs d evs Audio.boot).audio_fifo_put < d.MAX_AUDIO_BUFFERS ∧
    (run_irqs d evs Audio.boot).audio_fifo_ptr < 512 ∧
    (ADC_IRQHandler d x (run_irqs d evs Audio.boot)).audio_fifo
        (run_irqs d evs Audio.boot).audio_fifo_put (run_irqs d evs Audio.boot).audio_fifo_ptr =
      ad_data x ∧
    ad_data x ≤ 255 ∧
    (∀ b i, ¬ (b = (run_irqs d evs Audio.boot).audio_fifo_put ∧
        i = (run_irqs d evs Audio.boot).audio_fifo_ptr) →
      (ADC_IRQHandler d x (run_irqs d evs Audio.boot)).audio_fifo b i =
        (run_irqs d evs Audio.boot).audio_fifo b i) := by
  have hb : InBounds d Audio.boot := ⟨hd.1, Nat.zero_le _⟩
  have hr := run_irqs_in_bounds d evs Audio.boot hb
  have hx := ad_data_lt x
  refine ⟨hb, run_irqs_in_bounds d [IrqEvent.adc x] s hs,
    run_irqs_in_bounds d [IrqEvent.timer] s hs, hr, hr.1, Nat.lt_succ_of_le hr.2, ?_, by omega, ?_⟩
  · rw [ADC_audio_fifo]
    simp [store]
  · intro b i hne
    rw [ADC_audio_fifo]
    simp [store, hne]

/-- Witness of C19: six buffers, the last sample of a buffer, then a mix of interrupts. -/
theorem audio_fifo_store_in_bounds_witness :
    InBounds decls6 (ADC_IRQHandler decls6 0x8000 Audio.last_sample) :=
  (audio_fifo_store_in_bounds decls6 (by decide) Audio.last_sample
    ⟨by decide, by decide⟩ 0x8000 [IrqEvent.adc 0x1200, IrqEvent.timer]).2.1

/-- C18, the slow-poll is edge triggered: with `sd_ok` and `gbcam_ok` taken after the mount
and the probe, and a callback that keeps the flags, `slot_func` is called once if `sd_ok`
differs from `sd_ok_prev` or `gbcam_ok` from `gbcam_ok_prev` and not at all otherwise; the
storage icon is drawn exactly when `sd_ok` differs from `sd_ok_prev` (`icon_sdok` when `sd_ok`
is set, else `icon_sdnok`) and the camera icon exactly when `gbcam_ok` differs from
`gbcam_ok_prev` (`icon_camok` when set, else `icon_camnok`); on exit the shadows equal the
flags, so a slow-poll that follows at once and leaves the flags as they are calls no callback
and draws nothing. -/
theorem slow_poll_edge_triggered (d : Decls) (cb : Main → Main) (hcb : KeepsFlags cb)
    (mount detect mount2 detect2 : Nat) (m : Main) :
    (slow_poll d cb mount detect m).2.count Call.slot_func =
      (if (slow_poll d cb mount detect m).1.sd_ok ≠ m.sd_ok_prev ∨
          (slow_poll d cb mount detect m).1.gbcam_ok ≠ m.gbcam_ok_prev then 1 else 0) ∧
    (slow_poll d cb mount detect m).2.filter is_sd_icon =
      (if (slow_poll d cb mount detect m).1.sd_ok ≠ m.sd_ok_prev then
        [if (slow_poll d cb mount detect m).1.sd_ok ≠ 0 then
            Call.lcd_paint 218 0 Icon.icon_sdok 1
          else Call.lcd_paint 218 0 Icon.icon_sdnok 1]
        else []) ∧
    (slow_poll d cb mount detect m).2.filter is_cam_icon =
      (if (slow_poll d cb mount detect m).1.gbcam_ok ≠ m.gbcam_ok_prev then
        [if (slow_poll d cb mount detect m).1.gbcam_ok ≠ 0 then
            Call.lcd_paint 184 0 Icon.icon_camok 1
          else Call.lcd_paint 184 0 Icon.icon_camnok 1]
        else []) ∧
    (slow_poll d cb mount detect m).1.sd_ok_prev = (slow_poll d cb mount detect m).1.sd_ok ∧
    (slow_poll d cb mount detect m).1.gbcam_ok_prev =
      (slow_poll d cb mount detect m).1.gbcam_ok ∧
    ((slow_poll d cb mount2 detect2 (slow_poll d cb mount detect m).1).1.sd_ok =
        (slow_poll d cb mount detect m).1.sd_ok →
      (slow_poll d cb mount2 detect2 (slow_poll d cb mount detect m).1).1.gbcam_ok =
        (slow_poll d cb mount detect m).1.gbcam_ok →
      observed (slow_poll d cb mount2 detect2 (slow_poll d cb mount detect m).1).2 = (0, [])) := by
  obtain ⟨-, -, f3, f4⟩ := slow_poll_flags d cb hcb mount detect m
  refine ⟨(slow_poll_count d cb hcb mount detect m).1, slow_poll_sd_icons d cb hcb mount detect m,
    slow_poll_cam_icons d cb hcb mount detect m, f3, f4, ?_⟩
  intro h1 h2
  rw [slow_poll_observed d cb hcb, h1, h2, f3, f4]
  simp

/-- Witness of C18: the second and third slow-polls after boot, the mount failing and no
cartridge: the third leaves the flags as the second left them. -/
theorem slow_poll_edge_triggered_witness :
    observed (slow_poll decls6 noop 1 1 (slow_poll decls6 noop 1 1 Main.boot).1).2 = (0, []) :=
  (slow_poll_edge_triggered decls6 noop (fun _ => ⟨rfl, rfl, rfl, rfl⟩) 1 1 1 1
    Main.boot).2.2.2.2.2 (by decide) (by decide)

/-! ## The tone generator: what `beep` writes -/

theorem beep_period_le (f : Nat) : 360000 / f ≤ 360000 := Nat.div_le_self _ _

/-- The duty value for a volume of at most 255, without wraparound. -/
theorem beep_duty_eq (p v : Nat) (hp : p ≤ 360000) (hv : v ≤ 255) :
    p * v < 2 ^ 32 ∧ p * v / 256 ≤ p ∧ beep_duty p v = p - p * v / 256 := by
  have h1 : p * v ≤ 360000 * 255 := Nat.mul_le_mul hp hv
  have h2 : p * v / 256 ≤ p := by
    apply Nat.div_le_of_le_mul
    calc p * v ≤ p * 256 := Nat.mul_le_mul_left p (by omega)
      _ = 256 * p := Nat.mul_comm _ _
  have h0 : p * v < 2 ^ 32 := lt_of_le_of_lt h1 (by norm_num)
  refine ⟨h0, h2, ?_⟩
  have h8 : (2 : Nat) ^ 8 = 256 := by norm_num
  have h4 : p + 2 ^ 32 - p * v / 256 = (p - p * v / 256) + 2 ^ 32 := by omega
  have h5 : p - p * v / 256 < 2 ^ 32 :=
    lt_of_le_of_lt (le_trans (Nat.sub_le _ _) hp) (by norm_num)
  unfold beep_duty
  rw [Nat.mod_eq_of_lt h0, Nat.shiftRight_eq_div_pow, h8, h4, Nat.add_mod_right,
    Nat.mod_eq_of_lt h5]

/-- What `beep` returns when the frequency is not zero and the wait ends. -/
theorem beep_returns (r fuel tc f dur v : Nat) (h : Tmr32) (t : Tick) (hf : 1 ≤ f)
    (hd : dur ≤ 255) (hfu : dur ≤ fuel) :
    beep r fuel tc f dur v h t =
      some ({ TCR := 0, TC := 0, PR := 1099, PWMC := 1, MCR := 0x0002, MR0 := 3,
              MR3 := 360000 / f, PIO1_6 := 0 },
        run_SysTick r dur { t with systick := 0 },
        beep_setup ++ beep_tone (360000 / f) v ++ beep_restore) := by
  have hw : systick_wait r dur fuel t = some (run_SysTick r dur { t with systick := 0 }) :=
    wait_loop_returns r dur hd fuel { t with systick := 0 } (Nat.zero_le _) (by simpa using hfu)
  have hp : beep_period f = some (360000 / f) := by
    unfold beep_period
    rw [if_neg (by omega)]
  unfold beep
  simp only [hp, hw]
  rfl

theorem armed_beep_log (tcr p v : Nat) :
    armed_match_writes tcr (beep_setup ++ beep_tone p v ++ beep_restore) =
      [(Reg.MR3, p), (Reg.MR0, beep_duty p v)] := by
  simp [armed_match_writes, beep_setup, beep_tone, beep_restore]

/-! ## The tone generator: properties -/

/-- C14, as stated, fails: after the boot configuration of `TMR32B0` on the reset registers,
the call `beep(900, 10, 40)` of `main` returns with `PWMC = 1` and `MR3 = 400`, which the
capture configuration of boot does not have. -/
theorem beep_leaves_tone_settings :
    (beep 65536 10 123 900 10 40 (writes TMR32B0_boot Tmr32.reset) Tick.boot).map
        (fun q => q.1) =
      some { TCR := 0, TC := 0, PR := 1099, PWMC := 1, MCR := 2, MR0 := 3, MR3 := 400,
             PIO1_6 := 0 } ∧
    writes TMR32B0_boot Tmr32.reset =
      { TCR := 0, TC := 0, PR := 1099, PWMC := 0, MCR := 2, MR0 := 3, MR3 := 0, PIO1_6 := 0 } ∧
    (beep 65536 10 123 900 10 40 (writes TMR32B0_boot Tmr32.reset) Tick.boot).map
        (fun q => q.1) ≠ some (writes TMR32B0_boot Tmr32.reset) := by
  decide

/-- C14, amended: for every frequency of at least 1, every duration for which the wait
returns (at most 255, the ticks arriving) and every volume, after `beep` the registers that
the boot configuration of `main` writes (`PR`, `MCR`, `MR0`, `TCR`) hold the values of that
configuration again, `TC` is 0 and the pin function `PIO1_6` is 0; `PWMC` is left at 1 and
`MR3` at the tone period `360000 / frequency`. -/
theorem beep_restores_boot_writes (r fuel tc f dur v : Nat) (h h0 : Tmr32) (t : Tick)
    (hf : 1 ≤ f) (hd : dur ≤ 255) (hfu : dur ≤ fuel) :
    (beep r fuel tc f dur v h t).map (fun q => q.1) =
      some { writes TMR32B0_boot h0 with TC := 0, PWMC := 1, MR3 := 360000 / f, PIO1_6 := 0 } := by
  rw [beep_returns r fuel tc f dur v h t hf hd hfu]
  rfl

/-- Witness of the amended C14: the second call of `main`, `beep(1200, 10, 40)`. -/
theorem beep_restores_boot_writes_witness :
    (beep 65536 10 123 1200 10 40 Tmr32.reset Tick.boot).map (fun q => q.1) =
      some { writes TMR32B0_boot Tmr32.reset with
             TC := 0, PWMC := 1, MR3 := 360000 / 1200, PIO1_6 := 0 } :=
  beep_restores_boot_writes 65536 10 123 1200 10 40 Tmr32.reset Tmr32.reset Tick.boot
    (by decide) (by decide) (by decide)

/-- C15, as stated, fails: in the call `beep(900, 10, 40)` of `main` the writes `MR3 = 400`
and `MR0 = 338` are made after `TCR = 1`, while the timer is enabled. -/
theorem beep_writes_match_while_armed :
    (beep 65536 10 123 900 10 40 (writes TMR32B0_boot Tmr32.reset) Tick.boot).map
        (fun q => armed_match_writes 0 q.2.2) = some [(Reg.MR3, 400), (Reg.MR0, 338)] ∧
    (beep 65536 10 123 900 10 40 (writes TMR32B0_boot Tmr32.reset) Tick.boot).map
        (fun q => armed_match_writes 0 q.2.2) ≠ some [] := by
  decide

/-- C15, amended: among the register writes of a `beep` that returns, the match register
writes made while the timer is enabled are exactly the two that set the tone, `MR3 = period`
and `MR0 = duty` (lines 154 and 155), whatever `TCR` held before; the writes `MR0 = 90` and
`MR3 = 100` of the setup, the write `MR0 = 3` of the restore, and the write `MR0 = 3` of the
boot configuration (entered with `TCR = 0`) are made while it is disabled. -/
theorem beep_armed_writes_are_the_tone (r fuel tc f dur v tcr : Nat) (h : Tmr32) (t : Tick)
    (hf : 1 ≤ f) (hd : dur ≤ 255) (hfu : dur ≤ fuel) :
    (beep r fuel tc f dur v h t).map (fun q => q.2.2) =
      some (beep_setup ++ beep_tone (360000 / f) v ++ beep_restore) ∧
    (beep r fuel tc f dur v h t).map (fun q => armed_match_writes tcr q.2.2) =
      some [(Reg.MR3, 360000 / f), (Reg.MR0, beep_duty (360000 / f) v)] ∧
    armed_match_writes tcr beep_setup = [] ∧
    armed_match_writes tcr beep_restore = [] ∧
    armed_match_writes 0 TMR32B0_boot = [] := by
  rw [beep_returns r fuel tc f dur v h t hf hd hfu]
  refine ⟨rfl, ?_, ?_, ?_, by decide⟩
  · show some (armed_match_writes tcr (beep_setup ++ beep_tone (360000 / f) v ++ beep_restore)) = _
    rw [armed_beep_log]
  · simp [armed_match_writes, beep_setup]
  · simp [armed_match_writes, beep_restore]

/-- Witness of the amended C15: the call `beep(900, 10, 40)` of `main`. -/
theorem beep_armed_writes_are_the_tone_witness :
    (beep 65536 10 123 900 10 40 Tmr32.reset Tick.boot).map
        (fun q => armed_match_writes 0 q.2.2) =
      some [(Reg.MR3, 360000 / 900), (Reg.MR0, beep_duty (360000 / 900) 40)] :=
  (beep_armed_writes_are_the_tone 65536 10 123 900 10 40 0 Tmr32.reset Tick.boot (by decide)
    (by decide) (by decide)).2.1

/-- C20, tone period and duty: for every frequency of at least 1 and every volume in
`0..255`, `beep` writes `MR3 = 360000 / frequency` and
`MR0 = MR3 - MR3 * volume / 256`; the 32-bit computation does not wrap
(`MR3 * volume < 2 ^ 32` and `MR3 * volume / 256 ≤ MR3`), so `MR0 ≤ MR3`.  These are the
values in the registers while the tone plays and in the list of writes of a `beep` that
returns.  The division is undefined for frequency 0 and only there, and then `beep` has no
result. -/
theorem beep_period_and_duty (r fuel tc f dur v : Nat) (h : Tmr32) (t : Tick) (hf : 1 ≤ f)
    (hv : v ≤ 255) :
    beep_period f = some (360000 / f) ∧
    360000 / f * v < 2 ^ 32 ∧
    360000 / f * v / 256 ≤ 360000 / f ∧
    beep_tone (360000 / f) v =
      [(Reg.MR3, 360000 / f), (Reg.MR0, 360000 / f - 360000 / f * v / 256), (Reg.TC, 0)] ∧
    (writes (beep_setup ++ beep_tone (360000 / f) v) h).MR3 = 360000 / f ∧
    (writes (beep_setup ++ beep_tone (360000 / f) v) h).MR0 =
      360000 / f - 360000 / f * v / 256 ∧
    (writes (beep_setup ++ beep_tone (360000 / f) v) h).MR0 ≤
      (writes (beep_setup ++ beep_tone (360000 / f) v) h).MR3 ∧
    (dur ≤ 255 → dur ≤ fuel →
      (beep r fuel tc f dur v h t).map (fun q => q.2.2) =
        some (beep_setup ++
          [(Reg.MR3, 360000 / f), (Reg.MR0, 360000 / f - 360000 / f * v / 256), (Reg.TC, 0)] ++
          beep_restore)) ∧
    beep_period 0 = none ∧
    beep r fuel tc 0 dur v h t = none := by
  obtain ⟨d1, d2, d3⟩ := beep_duty_eq (360000 / f) v (beep_period_le f) hv
  have ht : beep_tone (360000 / f) v =
      [(Reg.MR3, 360000 / f), (Reg.MR0, 360000 / f - 360000 / f * v / 256), (Reg.TC, 0)] := by
    unfold beep_tone
    rw [d3]
  have h3 : (writes (beep_setup ++ beep_tone (360000 / f) v) h).MR3 = 360000 / f := rfl
  have h0 : (writes (beep_setup ++ beep_tone (360000 / f) v) h).MR0 =
      360000 / f - 360000 / f * v / 256 := by
    rw [ht]
    rfl
  refine ⟨?_, d1, d2, ht, h3, h0, ?_, ?_, rfl, rfl⟩
  · unfold beep_period
    rw [if_neg (by omega)]
  · rw [h0, h3]
    exact Nat.sub_le _ _
  · intro hd hfu
    rw [beep_returns r fuel tc f dur v h t hf hd hfu, ht]
    rfl

/-- Witness of C20: the call `beep(900, 10, 40)` of `main`. -/
theorem beep_period_and_duty_witness :
    (writes (beep_setup ++ beep_tone (360000 / 900) 40) Tmr32.reset).MR0 =
      360000 / 900 - 360000 / 900 * 40 / 256 :=
  (beep_period_and_duty 65536 10 123 900 10 40 Tmr32.reset Tick.boot (by decide)
    (by decide)).2.2.2.2.2.1

end GBCamcorder
